import Mathlib

/-!
# Cloudinfo: network-class mapper, Oracle adapter and caching query engine

A shallow embedding of

* `pkg/cloudinfo/oracle/network_mapper.go` (the Oracle network-class mapper),
* `pkg/productinfo/oracle/productinfo_oci.go` (the Oracle adapter),
* the caching query engine exercised by `pkg/cloudinfo/cloudinfo_test.go`.

Conventions.

* A Go `(T, error)` result is a pair whose second component is
  `Option String`: `none` is the nil error, `some msg` an error with message
  `msg`.  A nil slice or nil map result is `none` in the first component.
* A Go `map` is an association list; `range` over a map visits the entries in
  an unspecified order, so a function that ranges over a map takes the visit
  order as its first argument and the theorems quantify over every
  permutation of the entries.
* `float64` values are exact rationals; rounding is not modelled.
-/

namespace Cloudinfo

/-- Modelled from the spec: the network class constant `cloudinfo.NTW_LOW`
(class `LOW` of the closed set); package `cloudinfo` is not among the sources. -/
def NTW_LOW : String := "low"

/-- Modelled from the spec: the network class constant `cloudinfo.NTW_MEDIUM`
(class `MEDIUM` of the closed set). -/
def NTW_MEDIUM : String := "medium"

/-- Modelled from the spec: the network class constant `cloudinfo.NTW_HIGH`
(class `HIGH` of the closed set; the test mapper returns "high"). -/
def NTW_HIGH : String := "high"

/-- Modelled from the spec: the network class constant `cloudinfo.NTW_EXTRA`
(class `EXTRA` of the closed set). -/
def NTW_EXTRA : String := "extra"

/-- Modelled from the spec: the helper `cloudinfo.Contains`, which is not among
the sources: the string is compared for exact equality against every element
of the list. -/
def Contains (slice : List String) (s : String) : Bool :=
  match slice with
  | [] => false
  | e :: rest => if e = s then true else Contains rest s

end Cloudinfo

namespace Oracle

open Cloudinfo

/-- The table `ntwPerfMap` of `network_mapper.go`: class, then the raw
descriptors of the class, in the order of the map literal. -/
def ntwPerfMap : List (String × List String) :=
  [ (NTW_LOW, ["0.6 Gbps"]),
    (NTW_MEDIUM, ["1 Gbps", "1.2 Gbps", "2 Gbps", "2.4 Gbps"]),
    (NTW_HIGH, ["4.1 Gbps", "4.8 Gbps", "8.2 Gbps"]),
    (NTW_EXTRA, ["16.4 Gbps", "24.6 Gbps"]) ]

/-- The method `OCINetworkMapper.MapNetworkPerf`.  `order` is the sequence in
which `range ntwPerfMap` yields the entries of the table. -/
def MapNetworkPerf (order : List (String × List String)) (ntwPerf : String) :
    String × Option String :=
  match order with
  | [] => ("", some ("could not determine network performance for: [" ++ ntwPerf ++ "]"))
  | (perfCat, strVals) :: rest =>
    if Contains strVals ntwPerf then (perfCat, none) else MapNetworkPerf rest ntwPerf

end Oracle

namespace Cloudinfo

/-- The map type `SpotPriceInfo`: zone, then the spot price in the zone. -/
abbrev SpotPriceInfo := List (String × ℚ)

/-- The struct `Price` as the tests build it. -/
structure Price where
  OnDemandPrice : ℚ
  SpotPrice : SpotPriceInfo

/-- The struct `VmInfo` with the fields the sources set or read; the field
`Type` of the source is `Type_` here. -/
structure VmInfo where
  Type_ : String
  OnDemandPrice : ℚ
  SpotPrice : SpotPriceInfo
  Cpus : ℚ
  Mem : ℚ
  NtwPerf : String
  NtwPerfCat : String

/-- The struct `AttrValue`. -/
structure AttrValue where
  Value : ℚ
  StrValue : String

/-- The slice type `AttrValues`. -/
abbrev AttrValues := List AttrValue

/-- The canonical attribute name `cloudinfo.Cpu` used by the tests. -/
def Cpu : String := "cpu"

/-- The canonical attribute name `cloudinfo.Memory` used by the tests. -/
def Memory : String := "memory"

end Cloudinfo

namespace Oracle

open Cloudinfo

/-- The struct `ShapeSpecs`. -/
structure ShapeSpecs where
  PartNumber : String
  Cpus : ℚ
  Mem : ℚ
  NtwPerf : String

/-- The constant `cpu` of `productinfo_oci.go`. -/
def cpu : String := "cpu"

/-- The constant `memory` of `productinfo_oci.go`. -/
def memory : String := "memory"

/-- The table `regionNames`. -/
def regionNames : List (String × String) :=
  [ ("uk-london-1", "EU (London)"),
    ("eu-frankfurt-1", "EU (Frankfurt)"),
    ("us-ashburn-1", "US East (Ashburn)"),
    ("us-phoenix-1", "US West (Phoenix)") ]

/-- The table `shapeSpecs`, in the order of the map literal. -/
def shapeSpecs : List (String × ShapeSpecs) :=
  [ ("VM.Standard1.1", ⟨"B88317", 1, 7, "0.6 Gbps"⟩),
    ("VM.Standard2.1", ⟨"B88514", 1, 15, "1 Gbps"⟩),
    ("VM.Standard1.2", ⟨"B88317", 2, 14, "1.2 Gbps"⟩),
    ("VM.Standard2.2", ⟨"B88514", 2, 30, "2 Gbps"⟩),
    ("VM.Standard1.4", ⟨"B88317", 4, 28, "1.2 Gbps"⟩),
    ("VM.Standard2.4", ⟨"B88514", 4, 60, "4.1 Gbps"⟩),
    ("VM.Standard1.8", ⟨"B88317", 8, 56, "2.4 Gbps"⟩),
    ("VM.Standard2.8", ⟨"B88514", 8, 120, "8.2 Gbps"⟩),
    ("VM.Standard1.16", ⟨"B88317", 16, 112, "4.8 Gbps"⟩),
    ("VM.Standard2.16", ⟨"B88514", 16, 240, "16.4 Gbps"⟩),
    ("VM.Standard2.24", ⟨"B88514", 24, 320, "24.6 Gbps"⟩),
    ("VM.DenseIO1.4", ⟨"B88316", 4, 60, "1.2 Gbps"⟩),
    ("VM.DenseIO1.8", ⟨"B88316", 8, 60, "2.4 Gbps"⟩),
    ("VM.DenseIO2.8", ⟨"B88516", 8, 120, "8.2 Gbps"⟩),
    ("VM.DenseIO1.16", ⟨"B88316", 16, 120, "4.8 Gbps"⟩),
    ("VM.DenseIO2.16", ⟨"B88516", 16, 240, "16.4 Gbps"⟩),
    ("VM.DenseIO2.24", ⟨"B88516", 24, 320, "24.6 Gbps"⟩) ]

/-- The answers of the identity client that `NewIdentityClient` returns, whose
package is not among the sources; `GetAvailabilityDomains` lists the names
`*ad.Name` of the availability domains. -/
structure IdentityClient where
  GetSubscribedRegionNames : Except String (List String)
  GetAvailabilityDomains : Except String (List String)

/-- The answers of the Oracle SDK client `client.OCI`, whose package is not
among the sources: each field is what the call of that name returns
(`Except.error msg` for a non-nil error).  `GetSupportedShapes` lists the
regions in the order in which `range` visits the returned map.  The argument
of `NewIdentityClient` is the region that a `ChangeRegion` of the calling
method has set before, `none` when the method changes no region. -/
structure OCI where
  GetSupportedShapes : Except String (List (String × List String))
  ChangeRegion : String → Option String
  GetSupportedShapesInARegion : String → Except String (List String)
  NewIdentityClient : Option String → Except String IdentityClient

/-- The struct `Infoer`: the client and the shape catalogue. -/
structure Infoer where
  client : OCI
  shapeSpecs : List (String × ShapeSpecs)

/-- The constructor `NewInfoer`, for a client that `client.NewOCI` built. -/
def NewInfoer (oci : OCI) : Infoer :=
  { client := oci, shapeSpecs := shapeSpecs }

/-- The `switch attribute` of `GetAttributeValues` (`attrName` is the parameter
`attribute`); `sprint` is
`fmt.Sprintf("%v", ·)` on a `float64`.  Neither case leaves the zero value. -/
def attrOf (sprint : ℚ → String) (attrName : String) (specs : ShapeSpecs) : AttrValue :=
  if attrName = cpu then { Value := specs.Cpus, StrValue := sprint specs.Cpus }
  else if attrName = memory then { Value := specs.Mem, StrValue := sprint specs.Mem }
  else { Value := 0, StrValue := "" }

/-- The body of the inner loop of `GetAttributeValues` on one shape; the state
is `values` and the keys of `uniquemap`. -/
def attrStep (sprint : ℚ → String) (i : Infoer) (attrName : String)
    (st : AttrValues × List ℚ) (shape : String) : AttrValues × List ℚ :=
  match i.shapeSpecs.lookup shape with
  | none => st
  | some specs =>
    let attr := attrOf sprint attrName specs
    if attr.Value ∈ st.2 then st else (st.1 ++ [attr], attr.Value :: st.2)

/-- The two nested loops of `GetAttributeValues`. -/
def attrLoop (sprint : ℚ → String) (i : Infoer) (attrName : String)
    (shapesInRegions : List (String × List String)) (st : AttrValues × List ℚ) :
    AttrValues × List ℚ :=
  shapesInRegions.foldl (fun acc rs => rs.2.foldl (attrStep sprint i attrName) acc) st

/-- The method `Infoer.GetAttributeValues`.  On a client error the named result
`values` is the empty slice made at the start. -/
def GetAttributeValues (sprint : ℚ → String) (i : Infoer) (attrName : String) :
    AttrValues × Option String :=
  match i.client.GetSupportedShapes with
  | Except.error e => ([], some e)
  | Except.ok shapesInRegions => ((attrLoop sprint i attrName shapesInRegions ([], [])).1, none)

/-- The product that `GetProducts` appends for one shape: a shape missing from
the catalogue reads the zero `ShapeSpecs`. -/
def productOf (i : Infoer) (shape : String) : VmInfo :=
  let s := (i.shapeSpecs.lookup shape).getD { PartNumber := "", Cpus := 0, Mem := 0, NtwPerf := "" }
  { Type_ := shape, OnDemandPrice := 0, SpotPrice := [], Cpus := s.Cpus, Mem := s.Mem,
    NtwPerf := s.NtwPerf, NtwPerfCat := "" }

/-- The method `Infoer.GetProducts`; the first component is `none` for the nil
slice of the two error returns. -/
def GetProducts (i : Infoer) (regionId : String) : Option (List VmInfo) × Option String :=
  match i.client.ChangeRegion regionId with
  | some e => (none, some e)
  | none =>
    match i.client.GetSupportedShapesInARegion regionId with
    | Except.error e => (none, some e)
    | Except.ok shapes => (some (shapes.map (productOf i)), none)

end Oracle

namespace Cloudinfo

/-- The struct `ZonePrice` of the wire shape: one zone with its spot price. -/
structure ZonePrice where
  Zone : String
  Price : ℚ

/-- The struct `ProductDetails` with the fields of the wire shape that the
tests read; the field `Type` of the source is `Type_` here. -/
structure ProductDetails where
  Type_ : String
  Cpus : ℚ
  Mem : ℚ
  NtwPerf : String
  NtwPerfCat : String
  OnDemandPrice : ℚ
  SpotInfo : List ZonePrice

/-- Modelled from the spec: the value shapes the store holds (VmInfo lists,
prices, zone lists, attribute values, region maps), each entry tagged with
its shape; the store implementation is not among the sources. -/
inductive CacheValue where
  | vms (v : List VmInfo)
  | price (p : Price)
  | zones (z : List String)
  | attrValues (a : AttrValues)
  | regions (r : List (String × String))

/-- Modelled from the spec: the key-value store behind the interface
`ProductStorer` (`Get`, `Set`), a mapping from string key to value; the newest
entry of a key comes first.  Expiry is not modelled. -/
abbrev ProductStorer := List (String × CacheValue)

/-- Modelled from the spec: `get(k) → (value, found)` of the store. -/
def ProductStorer.Get (s : ProductStorer) (k : String) : Option CacheValue :=
  s.lookup k

/-- Modelled from the spec: `set(k, v, ttl)` of the store replaces the entry of
`k`. -/
def ProductStorer.Set (s : ProductStorer) (k : String) (x : CacheValue) : ProductStorer :=
  (k, x) :: s

/-- The interface `CloudInfoer` as the test double implements it: each field
is what the call of that name returns (`Except.error msg` for a non-nil
error). -/
structure CloudInfoer where
  Initialize : Except String (List (String × List (String × Price)))
  GetAttributeValues : String → String → Except String AttrValues
  GetProducts : String → String → Except String (List VmInfo)
  GetZones : String → Except String (List String)
  GetRegions : String → Except String (List (String × String))
  HasShortLivedPriceInfo : Bool
  GetCurrentPrices : String → Except String (List (String × Price))
  GetMemoryAttrName : String
  GetCpuAttrName : String
  MapNetworkPerf : String → String × Option String
  GetNetworkPerformanceMapper : Except String (String → String × Option String)

/-- The test double `DummyCloudInfoer` of `cloudinfo_test.go`. -/
structure DummyCloudInfoer where
  AttrValues : AttrValues
  Vms : List VmInfo
  TcId : String

/-- The constant `GetRegionsError` of the tests. -/
def GetRegionsError : String := "could not get regions"

/-- The constant `GetCurrentPricesError` of the tests. -/
def GetCurrentPricesError : String := "could not get current prices"

/-- The constant `GetAttributeValuesError` of the tests. -/
def GetAttributeValuesError : String := "could not get attribute values"

/-- The constant `GetProductsError` of the tests. -/
def GetProductsError : String := "could not get products"

/-- The constant `InitializeError` of the tests. -/
def InitializeError : String := "initialization failed"

/-- The constant `GetZonesError` of the tests. -/
def GetZonesError : String := "could not get zones"

/-- The constant `ProductDetailsOK` of the tests. -/
def ProductDetailsOK : String := "successfully get product details"

/-- The constant `GetProductDetail` of the tests. -/
def GetProductDetail : String := "returns a product detail"

/-- The price table that `DummyCloudInfoer.GetCurrentPrices` returns. -/
def dummyPrices : List (String × Price) :=
  [ ("c1.xlarge", { OnDemandPrice := 0.52, SpotPrice := [("dummyZone1", 0.164)] }),
    ("c4.2xlarge", { OnDemandPrice := 0.4, SpotPrice := [("dummyZone2", 0.12)] }),
    ("c3.large", { OnDemandPrice := 0.11, SpotPrice := [("dummyZone1", 0.053)] }) ]

/-- The methods of `DummyCloudInfoer` that implement `CloudInfoer`. -/
def DummyCloudInfoer.toCloudInfoer (dpi : DummyCloudInfoer) : CloudInfoer :=
  { Initialize :=
      if dpi.TcId = InitializeError then Except.error InitializeError
      else Except.ok
        [ ("c1.xlarge", [("dummy", { OnDemandPrice := 0.52, SpotPrice := [("dummyZone1", 0.164)] })]),
          ("c4.2xlarge", [("dummy", { OnDemandPrice := 0.4, SpotPrice := [("dummyZone2", 0.12)] })]),
          ("c3.large", [("dummy", { OnDemandPrice := 0.11, SpotPrice := [("dummyZone1", 0.053)] })]) ]
    GetAttributeValues := fun _ _ =>
      if dpi.TcId = GetAttributeValuesError then Except.error GetAttributeValuesError
      else Except.ok dpi.AttrValues
    GetProducts := fun _ _ =>
      if dpi.TcId = GetProductsError then Except.error GetProductsError
      else Except.ok dpi.Vms
    GetZones := fun _ =>
      if dpi.TcId = GetZonesError then Except.error GetZonesError
      else Except.ok ["dummyZone1", "dummyZone2"]
    GetRegions := fun _ =>
      if dpi.TcId = GetRegionsError then Except.error GetRegionsError
      else Except.ok
        [ ("EU (Frankfurt)", "eu-central-1"),
          ("EU (Ireland)", "eu-west-1"),
          ("US West (Oregon)", "us-west-2") ]
    HasShortLivedPriceInfo := true
    GetCurrentPrices := fun _ =>
      if dpi.TcId = GetCurrentPricesError then Except.error GetCurrentPricesError
      else Except.ok dummyPrices
    GetMemoryAttrName := "memory"
    GetCpuAttrName := "vcpu"
    MapNetworkPerf := fun _ => ("high", none)
    GetNetworkPerformanceMapper := Except.ok (fun _ => ("high", none)) }

/-- The method `DummyCloudInfoer.Get`: the entries the test double serves as a
store, by test case. -/
def DummyCloudInfoer.store (tcId : String) : ProductStorer :=
  if tcId = ProductDetailsOK then
    [ ("/banzaicloud.com/cloudinfo/providers/dummy/services/dummyService/regions/dummyRegion/vms",
        CacheValue.vms
          [ { Type_ := "type-1", OnDemandPrice := 0.021, SpotPrice := [("dummy", 0.006)],
              Cpus := 1, Mem := 2, NtwPerf := "", NtwPerfCat := "high" },
            { Type_ := "type-2", OnDemandPrice := 0, SpotPrice := [],
              Cpus := 2, Mem := 4, NtwPerf := "", NtwPerfCat := "high" },
            { Type_ := "type-3", OnDemandPrice := 0, SpotPrice := [],
              Cpus := 2, Mem := 4, NtwPerf := "", NtwPerfCat := "high" } ]),
      ("/banzaicloud.com/cloudinfo/providers/dummy/regions/dummyRegion/prices/type-1",
        CacheValue.price { OnDemandPrice := 0.023, SpotPrice := [("dummyZone", 0.0069)] }),
      ("/banzaicloud.com/cloudinfo/providers/dummy/regions/dummyRegion/prices/type-2",
        CacheValue.price { OnDemandPrice := 0.043, SpotPrice := [("dummyZone", 0.0087)] }) ]
  else if tcId = GetProductDetail then
    [ ("/banzaicloud.com/cloudinfo/providers/dummy/services/dummyService/regions/dummyRegion/vms",
        CacheValue.vms
          [ { Type_ := "type-1", OnDemandPrice := 0.021, SpotPrice := [],
              Cpus := 1, Mem := 2, NtwPerf := "", NtwPerfCat := "high" } ]),
      ("/banzaicloud.com/cloudinfo/providers/dummy/regions/dummyRegion/prices/type-1",
        CacheValue.price { OnDemandPrice := 0.023, SpotPrice := [("dummyZone", 0.0069)] }) ]
  else []

/-- Modelled from the spec: the struct `CachingCloudInfo`, the adapters by
provider and the store (field `vmAttrStore` in the tests); its source file is
not among the sources. -/
structure CachingCloudInfo where
  cloudInfoers : List (String × CloudInfoer)
  vmAttrStore : ProductStorer

/-- Modelled from the spec: the canonical VMs key
`/<org>/cloudinfo/providers/<provider>/services/<service>/regions/<region>/vms`
with the org of the tests. -/
def getVmKey (provider service region : String) : String :=
  "/banzaicloud.com/cloudinfo/providers/" ++ provider ++ "/services/" ++ service
    ++ "/regions/" ++ region ++ "/vms"

/-- Modelled from the spec: the canonical price key
`/<org>/cloudinfo/providers/<provider>/regions/<region>/prices/<vmType>`. -/
def getPriceKey (provider region instanceType : String) : String :=
  "/banzaicloud.com/cloudinfo/providers/" ++ provider ++ "/regions/" ++ region
    ++ "/prices/" ++ instanceType

/-- Modelled from the spec: the canonical zones key
`/<org>/cloudinfo/providers/<provider>/regions/<region>/zones`. -/
def getZonesKey (provider region : String) : String :=
  "/banzaicloud.com/cloudinfo/providers/" ++ provider ++ "/regions/" ++ region ++ "/zones"

/-- Modelled from the spec: the canonical attribute key
`/<org>/cloudinfo/providers/<provider>/services/<service>/attributes/<attr>`. -/
def getAttrKey (provider service attr : String) : String :=
  "/banzaicloud.com/cloudinfo/providers/" ++ provider ++ "/services/" ++ service
    ++ "/attributes/" ++ attr

/-- Modelled from the spec: the per-type `Price` entry of the store, if
present. -/
def cachedPrice (cpi : CachingCloudInfo) (provider region instanceType : String) :
    Option Price :=
  match cpi.vmAttrStore.Get (getPriceKey provider region instanceType) with
  | some (CacheValue.price p) => some p
  | _ => none

/-- Modelled from the spec: the join of one VmInfo with its price entry:
`onDemandPrice` is overwritten with the value of the price entry and the
zone→spot mapping is attached. -/
def newProductDetails (vm : VmInfo) (pr : Price) : ProductDetails :=
  { Type_ := vm.Type_, Cpus := vm.Cpus, Mem := vm.Mem, NtwPerf := vm.NtwPerf,
    NtwPerfCat := vm.NtwPerfCat, OnDemandPrice := pr.OnDemandPrice,
    SpotInfo := pr.SpotPrice.map (fun zp => { Zone := zp.1, Price := zp.2 }) }

/-- Modelled from the spec: the loop of `getProductDetails` over the cached
VmInfo sequence; following the reference behaviour an entry is emitted for
each VmInfo for which a `Price` entry exists. -/
def joinDetails (cpi : CachingCloudInfo) (provider region : String)
    (vms : List VmInfo) (details : List ProductDetails) : List ProductDetails :=
  match vms with
  | [] => details
  | vm :: rest =>
    match cachedPrice cpi provider region vm.Type_ with
    | some pr => joinDetails cpi provider region rest (details ++ [newProductDetails vm pr])
    | none => joinDetails cpi provider region rest details

/-- Modelled from the spec: `CachingCloudInfo.GetProductDetails`: read the
VmInfo list at the canonical VMs key; if absent fail with `NotCached(key)`
(the message is the one the test expects), otherwise return the joined
sequence. -/
def GetProductDetails (cpi : CachingCloudInfo) (provider service region : String) :
    Option (List ProductDetails) × Option String :=
  match cpi.vmAttrStore.Get (getVmKey provider service region) with
  | some (CacheValue.vms vms) => (some (joinDetails cpi provider region vms []), none)
  | _ => (none, some ("vms not yet cached for the key: " ++ getVmKey provider service region))

/-- Modelled from the spec: the short-lived refresh of a region: call
`adapter.getCurrentPrices(region)`; on failure keep the store and report the
error; otherwise write one per-type entry for each `(vmType, Price)`.  An
unknown provider is a validation error. -/
def renewShortLivedInfo (cpi : CachingCloudInfo) (provider region : String) :
    (Option (List (String × Price)) × Option String) × CachingCloudInfo :=
  match cpi.cloudInfoers.lookup provider with
  | none => ((none, some ("invalid provider: " ++ provider)), cpi)
  | some infoer =>
    match infoer.GetCurrentPrices region with
    | Except.error e => ((none, some e), cpi)
    | Except.ok prices =>
      ((some prices, none),
        { cpi with vmAttrStore := (prices.foldl
            (fun st tp => st.Set (getPriceKey provider region tp.1) (CacheValue.price tp.2))
            cpi.vmAttrStore) })

/-- Modelled from the spec: the sum of the spot prices over the supplied zones
list, where a zone with no spot price contributes 0. -/
def sumSpot (p : Price) (zones : List String) (sumPrice : ℚ) : ℚ :=
  match zones with
  | [] => sumPrice
  | z :: rest => sumSpot p rest (sumPrice + (p.SpotPrice.lookup z).getD 0)

/-- Modelled from the spec: `CachingCloudInfo.GetPrice`: fetch the short-lived
`Price` of `(region, vmType)` from the store or by a refresh; `onDemand` is
the raw value and `avgSpot` the sum over the supplied zones divided by
`len(zones)`.  It fails only if the refresh fails, with zero prices as the
test expects; a type the refresh does not report reads the zero `Price`. -/
def GetPrice (cpi : CachingCloudInfo) (provider region instanceType : String)
    (zones : List String) : (ℚ × ℚ × Option String) × CachingCloudInfo :=
  match cachedPrice cpi provider region instanceType with
  | some p => ((p.OnDemandPrice, sumSpot p zones 0 / (zones.length : ℚ), none), cpi)
  | none =>
    match renewShortLivedInfo cpi provider region with
    | ((some allPriceInfo, _), cpi2) =>
      let p := (allPriceInfo.lookup instanceType).getD { OnDemandPrice := 0, SpotPrice := [] }
      ((p.OnDemandPrice, sumSpot p zones 0 / (zones.length : ℚ), none), cpi2)
    | ((none, err), cpi2) => ((0, 0, err), cpi2)

/-- Modelled from the spec: the numeric values of an `AttrValues`, in order. -/
def floatValues (v : AttrValues) : List ℚ :=
  v.map (fun av => av.Value)

/-- Modelled from the spec: `CachingCloudInfo.GetAttrValues`: the attribute
must be canonical `"cpu"` or `"memory"`, otherwise fail with
`UnsupportedAttribute(attribute)` (the message is the one the test expects);
translate to the name of the provider via the adapter, read or refresh the
cache entry, return the values ascending.  An unknown provider is a
validation error. -/
def GetAttrValues (cpi : CachingCloudInfo) (provider service attr : String) :
    (Option (List ℚ) × Option String) × CachingCloudInfo :=
  if attr ≠ Cpu ∧ attr ≠ Memory then
    ((none, some ("unsupported attribute: " ++ attr)), cpi)
  else
    match cpi.cloudInfoers.lookup provider with
    | none => ((none, some ("invalid provider: " ++ provider)), cpi)
    | some infoer =>
      let providerAttr := if attr = Cpu then infoer.GetCpuAttrName else infoer.GetMemoryAttrName
      match cpi.vmAttrStore.Get (getAttrKey provider service attr) with
      | some (CacheValue.attrValues v) =>
        ((some ((floatValues v).insertionSort (fun a b => a ≤ b)), none), cpi)
      | _ =>
        match infoer.GetAttributeValues service providerAttr with
        | Except.error e => ((none, some e), cpi)
        | Except.ok v =>
          ((some ((floatValues v).insertionSort (fun a b => a ≤ b)), none),
            { cpi with vmAttrStore :=
                (cpi.vmAttrStore.Set (getAttrKey provider service attr) (CacheValue.attrValues v)) })

end Cloudinfo

namespace Oracle

open Cloudinfo

/-- The assignment `m[k] = v` on a Go map: the entry of `k` is replaced, or
added when `k` is not yet a key. -/
def mapSet {β : Type} (m : List (String × β)) (k : String) (v : β) : List (String × β) :=
  match m with
  | [] => [(k, v)]
  | (k1, v1) :: rest => if k1 = k then (k, v) :: rest else (k1, v1) :: mapSet rest k v

/-- The method `Infoer.GetCurrentPrices`. -/
def GetCurrentPrices (_i : Infoer) (_region : String) :
    Option (List (String × Price)) × Option String :=
  (none, some "oracle prices cannot be queried on the fly")

/-- The method `Infoer.GetMemoryAttrName`. -/
def GetMemoryAttrName (_i : Infoer) : String := memory

/-- The method `Infoer.GetCpuAttrName`. -/
def GetCpuAttrName (_i : Infoer) : String := cpu

/-- The method `Infoer.HasShortLivedPriceInfo`. -/
def HasShortLivedPriceInfo (_i : Infoer) : Bool := false

/-- The method `Infoer.GetProductPrices`; `itra partNumber` is
`info.GetPrice("PAY_AS_YOU_GO")` for the `info` that `GetProductInfoFromITRA`
returns for the part number (its error is discarded); that code is not among
the sources.  The error result is always nil. -/
def GetProductPrices (itra : String → ℚ) (i : Infoer) : List (String × ℚ) × Option String :=
  (i.shapeSpecs.map (fun sp => (sp.1, itra sp.2.PartNumber * sp.2.Cpus)), none)

/-- The loop of `GetRegions` over the subscribed region names. -/
def regionsLoop (names : List String) (regions : List (String × String)) :
    List (String × String) :=
  match names with
  | [] => regions
  | region :: rest =>
    regionsLoop rest (mapSet regions region ((regionNames.lookup region).getD region))

/-- The method `Infoer.GetRegions`; the map is `none` (nil) on the two error
returns. -/
def GetRegions (i : Infoer) : Option (List (String × String)) × Option String :=
  match i.client.NewIdentityClient none with
  | Except.error e => (none, some e)
  | Except.ok c =>
    match c.GetSubscribedRegionNames with
    | Except.error e => (none, some e)
    | Except.ok names => (some (regionsLoop names []), none)

/-- The method `Infoer.GetZones`; `zones` stays nil when no availability domain
is appended. -/
def GetZones (i : Infoer) (region : String) : Option (List String) × Option String :=
  match i.client.ChangeRegion region with
  | some e => (none, some e)
  | none =>
    match i.client.NewIdentityClient (some region) with
    | Except.error e => (none, some e)
    | Except.ok c =>
      match c.GetAvailabilityDomains with
      | Except.error e => (none, some e)
      | Except.ok ads => (if ads.isEmpty then none else some ads, none)

/-- The first loop of `Initialize`: the zones of each region, in the order in
which `range regions` yields the regions; it stops at the first error. -/
def zonesLoop (i : Infoer) (rs : List (String × String))
    (zonesInRegions : List (String × Option (List String))) :
    List (String × Option (List String)) × Option String :=
  match rs with
  | [] => (zonesInRegions, none)
  | (r, _) :: rest =>
    match GetZones i r with
    | (_, some err) => (zonesInRegions, some err)
    | (zones, none) => zonesLoop i rest (mapSet zonesInRegions r zones)

/-- The body of the innermost loop of `Initialize` on one product, on the map
`prices[region]`. -/
def productStep (shapePrices : List (String × ℚ)) (m : List (String × Price))
    (product : VmInfo) : List (String × Price) :=
  let shapePrice := (shapePrices.lookup product.Type_).getD 0
  let price := (m.lookup product.Type_).getD { OnDemandPrice := 0, SpotPrice := [] }
  mapSet m product.Type_ { price with OnDemandPrice := shapePrice }

/-- The second loop of `Initialize`, in the order in which `range regions`
yields the regions; on an error of `GetProducts` it returns the prices built
so far with that error. -/
def pricesLoop (i : Infoer) (shapePrices : List (String × ℚ)) (rs : List (String × String))
    (prices : List (String × List (String × Price))) :
    List (String × List (String × Price)) × Option String :=
  match rs with
  | [] => (prices, none)
  | (region, _) :: rest =>
    match GetProducts i region with
    | (_, some err) => (prices, some err)
    | (products, none) =>
      pricesLoop i shapePrices rest
        (mapSet prices region
          ((products.getD []).foldl (productStep shapePrices) ((prices.lookup region).getD [])))

/-- The method `Infoer.Initialize`.  `visit1` and `visit2` give the order in
which the first and the second `range regions` yield the entries of the map;
`itra` is as in `GetProductPrices`.  The price map is `none` (nil) on the
early error returns. -/
def Initialize (visit1 visit2 : List (String × String) → List (String × String))
    (itra : String → ℚ) (i : Infoer) :
    Option (List (String × List (String × Price))) × Option String :=
  match GetRegions i with
  | (_, some err) => (none, some err)
  | (regions, none) =>
    match zonesLoop i (visit1 (regions.getD [])) [] with
    | (_, some err) => (none, some err)
    | (_, none) =>
      match GetProductPrices itra i with
      | (_, some err) => (none, some err)
      | (shapePrices, none) =>
        match pricesLoop i shapePrices (visit2 (regions.getD [])) [] with
        | (prices, err) => (some prices, err)

end Oracle

namespace Cloudinfo

/-- Modelled from the spec: the factory `NewCachingCloudInfo`, which fails
with a construction error when no adapters are supplied (the message is the
one the test expects).  The renewal interval is left out, as expiry is. -/
def NewCachingCloudInfo (cache : ProductStorer) (infoers : List (String × CloudInfoer)) :
    Option CachingCloudInfo × Option String :=
  match infoers with
  | [] => (none, some "could not create product infoer")
  | _ :: _ => (some { cloudInfoers := infoers, vmAttrStore := cache }, none)

/-- Modelled from the spec: step 2 of the long-lived refresh on one VmInfo:
resolve the network class via the mapper of the adapter (its `MapNetworkPerf`);
on an unknown descriptor the record is dropped. -/
def resolveNtwPerfCat (mapper : String → String × Option String) (vm : VmInfo) :
    Option VmInfo :=
  match mapper vm.NtwPerf with
  | (cat, none) => some { vm with NtwPerfCat := cat }
  | (_, some _) => none

/-- Modelled from the spec: `CachingCloudInfo.renewVms`, the long-lived refresh
of the VMs key: (1) call `adapter.getProducts(service, region)`; (2) resolve
the network class of each VmInfo via the mapper that
`adapter.getNetworkPerformanceMapper()` provides, dropping a record with an
unknown descriptor; (3) write the resulting sequence under the VMs key;
(4) write the zones of `adapter.getZones(region)` under the zones key.  Each
adapter call may fail; a refresh that errors does not mutate the store, so
the three calls precede the two writes.  An unknown provider is a validation
error. -/
def renewVms (cpi : CachingCloudInfo) (provider service region : String) :
    (Option (List VmInfo) × Option String) × CachingCloudInfo :=
  match cpi.cloudInfoers.lookup provider with
  | none => ((none, some ("invalid provider: " ++ provider)), cpi)
  | some infoer =>
    match infoer.GetProducts service region with
    | Except.error e => ((none, some e), cpi)
    | Except.ok values =>
      match infoer.GetNetworkPerformanceMapper with
      | Except.error e => ((none, some e), cpi)
      | Except.ok mapper =>
        match infoer.GetZones region with
        | Except.error e => ((none, some e), cpi)
        | Except.ok zones =>
          ((some (values.filterMap (resolveNtwPerfCat mapper)), none),
            { cpi with vmAttrStore :=
                ((cpi.vmAttrStore.Set (getVmKey provider service region)
                    (CacheValue.vms (values.filterMap (resolveNtwPerfCat mapper)))).Set
                  (getZonesKey provider region) (CacheValue.zones zones)) })

/-- Modelled from the spec: `CachingCloudInfo.GetZones`, a read-through of the
zones key: on a miss the zones are fetched from the adapter and written under
the zones key; a failure of the refresh is propagated.  An unknown provider
is a validation error. -/
def GetZones (cpi : CachingCloudInfo) (provider region : String) :
    (Option (List String) × Option String) × CachingCloudInfo :=
  match cpi.vmAttrStore.Get (getZonesKey provider region) with
  | some (CacheValue.zones z) => ((some z, none), cpi)
  | _ =>
    match cpi.cloudInfoers.lookup provider with
    | none => ((none, some ("invalid provider: " ++ provider)), cpi)
    | some infoer =>
      match infoer.GetZones region with
      | Except.error e => ((none, some e), cpi)
      | Except.ok z =>
        ((some z, none),
          { cpi with vmAttrStore :=
              (cpi.vmAttrStore.Set (getZonesKey provider region) (CacheValue.zones z)) })

end Cloudinfo

namespace Cloudinfo

theorem Contains_iff (slice : List String) (s : String) :
    Contains slice s = true ↔ s ∈ slice := by
  induction slice with
  | nil => simp [Contains]
  | cons e rest ih =>
    by_cases h : e = s
    · simp [Contains, h]
    · have h2 : ¬ s = e := fun h3 => h h3.symm
      simp [Contains, h, h2, ih]

end Cloudinfo

namespace Oracle

open Cloudinfo

/-- No raw descriptor of the table is listed under two classes. -/
theorem ntwPerfMap_disjoint :
    ∀ e1 ∈ ntwPerfMap, ∀ e2 ∈ ntwPerfMap, ∀ d ∈ e1.2, d ∈ e2.2 → e1.1 = e2.1 := by
  decide

end Oracle

namespace Oracle

open Cloudinfo

/-- A raw string that no visited entry lists is rejected with the empty class
and the formatted message. -/
theorem MapNetworkPerf_reject (order : List (String × List String)) (raw : String)
    (h : ∀ e ∈ order, raw ∉ e.2) :
    MapNetworkPerf order raw
      = ("", some ("could not determine network performance for: [" ++ raw ++ "]")) := by
  induction order with
  | nil => rfl
  | cons e rest ih =>
    obtain ⟨c, ds⟩ := e
    have h1 : raw ∉ ds := h (c, ds) (List.mem_cons_self _ _)
    have h2 : Contains ds raw = false := by
      cases hc : Contains ds raw with
      | false => rfl
      | true => exact absurd ((Contains_iff ds raw).mp hc) h1
    have h3 : ∀ e ∈ rest, raw ∉ e.2 := fun e he => h e (List.mem_cons_of_mem _ he)
    simp [MapNetworkPerf, h2, ih h3]

/-- A raw string listed under class `c`, and under no other class, maps to `c`
whatever the visit order. -/
theorem MapNetworkPerf_accept (order : List (String × List String)) (raw c : String)
    (hmem : ∃ e ∈ order, raw ∈ e.2)
    (huniq : ∀ e ∈ order, raw ∈ e.2 → e.1 = c) :
    MapNetworkPerf order raw = (c, none) := by
  induction order with
  | nil =>
    obtain ⟨e, he, _⟩ := hmem
    exact absurd he (List.not_mem_nil e)
  | cons e rest ih =>
    obtain ⟨c1, ds⟩ := e
    by_cases hin : raw ∈ ds
    · have hc : Contains ds raw = true := (Contains_iff ds raw).mpr hin
      have hc1 : c1 = c := huniq (c1, ds) (List.mem_cons_self _ _) hin
      simp [MapNetworkPerf, hc, hc1]
    · have hc : Contains ds raw = false := by
        cases hc2 : Contains ds raw with
        | false => rfl
        | true => exact absurd ((Contains_iff ds raw).mp hc2) hin
      have hmem2 : ∃ e ∈ rest, raw ∈ e.2 := by
        obtain ⟨e, he, hr⟩ := hmem
        rcases List.mem_cons.mp he with heq | hrest
        · subst heq
          exact absurd hr hin
        · exact ⟨e, hrest, hr⟩
      have huniq2 : ∀ e ∈ rest, raw ∈ e.2 → e.1 = c :=
        fun e he hr => huniq e (List.mem_cons_of_mem _ he) hr
      simp [MapNetworkPerf, hc, ih hmem2 huniq2]

/-- The call fails exactly when no visited entry lists the raw string. -/
theorem MapNetworkPerf_error_iff (order : List (String × List String)) (raw : String) :
    (MapNetworkPerf order raw).2 ≠ none ↔ ∀ e ∈ order, raw ∉ e.2 := by
  constructor
  · intro herr e he hin
    induction order with
    | nil => exact absurd he (List.not_mem_nil e)
    | cons e1 rest ih =>
      obtain ⟨c1, ds⟩ := e1
      by_cases hin1 : raw ∈ ds
      · have hc : Contains ds raw = true := (Contains_iff ds raw).mpr hin1
        simp [MapNetworkPerf, hc] at herr
      · have hc : Contains ds raw = false := by
          cases hc2 : Contains ds raw with
          | false => rfl
          | true => exact absurd ((Contains_iff ds raw).mp hc2) hin1
        simp only [MapNetworkPerf, hc] at herr
        rcases List.mem_cons.mp he with heq | hrest
        · subst heq
          exact hin1 hin
        · exact ih (by simpa using herr) hrest
  · intro h
    rw [MapNetworkPerf_reject order raw h]
    simp

/-- A class returned with a nil error is the key of a visited entry. -/
theorem MapNetworkPerf_class_mem (order : List (String × List String)) (raw : String)
    (h : (MapNetworkPerf order raw).2 = none) :
    (MapNetworkPerf order raw).1 ∈ order.map Prod.fst := by
  induction order with
  | nil => simp [MapNetworkPerf] at h
  | cons e rest ih =>
    obtain ⟨c1, ds⟩ := e
    cases hc : Contains ds raw with
    | true => simp [MapNetworkPerf, hc]
    | false =>
      simp only [MapNetworkPerf, hc] at h ⊢
      have := ih (by simpa using h)
      simp only [List.map_cons, List.mem_cons]
      right
      simpa using this

/-- Every descriptor of the shape catalogue is listed in the mapping table. -/
theorem shapeSpecs_descriptors_listed :
    ∀ s ∈ shapeSpecs, ∃ e ∈ ntwPerfMap, s.2.NtwPerf ∈ e.2 := by
  decide

end Oracle

namespace Oracle

open Cloudinfo

/-- C1: for every class `c` of `ntwPerfMap` and every descriptor `d` listed
under `c`, `MapNetworkPerf d` returns `(c, nil)`, in whatever order the
entries of the table are visited. -/
theorem MapNetworkPerf_listed (order : List (String × List String))
    (hperm : order.Perm ntwPerfMap) (c : String) (ds : List String)
    (hc : (c, ds) ∈ ntwPerfMap) (d : String) (hd : d ∈ ds) :
    MapNetworkPerf order d = (c, none) := by
  have hc2 : (c, ds) ∈ order := hperm.mem_iff.mpr hc
  refine MapNetworkPerf_accept order d c ⟨(c, ds), hc2, hd⟩ ?_
  intro e he hin
  exact ntwPerfMap_disjoint e (hperm.mem_iff.mp he) (c, ds) hc d hin hd

/-- C1, on the four descriptors the claim names, the table visited in reverse. -/
theorem MapNetworkPerf_listed_witness :
    MapNetworkPerf ntwPerfMap.reverse "0.6 Gbps" = (NTW_LOW, none)
      ∧ MapNetworkPerf ntwPerfMap.reverse "2.4 Gbps" = (NTW_MEDIUM, none)
      ∧ MapNetworkPerf ntwPerfMap.reverse "8.2 Gbps" = (NTW_HIGH, none)
      ∧ MapNetworkPerf ntwPerfMap.reverse "24.6 Gbps" = (NTW_EXTRA, none) :=
  ⟨MapNetworkPerf_listed ntwPerfMap.reverse (List.reverse_perm _) NTW_LOW
      ["0.6 Gbps"] (by decide) "0.6 Gbps" (by decide),
    MapNetworkPerf_listed ntwPerfMap.reverse (List.reverse_perm _) NTW_MEDIUM
      ["1 Gbps", "1.2 Gbps", "2 Gbps", "2.4 Gbps"] (by decide) "2.4 Gbps" (by decide),
    MapNetworkPerf_listed ntwPerfMap.reverse (List.reverse_perm _) NTW_HIGH
      ["4.1 Gbps", "4.8 Gbps", "8.2 Gbps"] (by decide) "8.2 Gbps" (by decide),
    MapNetworkPerf_listed ntwPerfMap.reverse (List.reverse_perm _) NTW_EXTRA
      ["16.4 Gbps", "24.6 Gbps"] (by decide) "24.6 Gbps" (by decide)⟩

/-- C2: `MapNetworkPerf raw` returns an error if and only if `raw` equals no
descriptor of any list of `ntwPerfMap`; the class is then the empty string and
the message is the formatted one; nothing is normalised, so "1 gbps" and
" 1 Gbps" are rejected. -/
theorem MapNetworkPerf_unknown (order : List (String × List String))
    (hperm : order.Perm ntwPerfMap) (raw : String) :
    ((MapNetworkPerf order raw).2 ≠ none ↔ ∀ e ∈ ntwPerfMap, raw ∉ e.2)
      ∧ ((∀ e ∈ ntwPerfMap, raw ∉ e.2) →
          MapNetworkPerf order raw
            = ("", some ("could not determine network performance for: [" ++ raw ++ "]")))
      ∧ MapNetworkPerf order "1 gbps"
          = ("", some "could not determine network performance for: [1 gbps]")
      ∧ MapNetworkPerf order " 1 Gbps"
          = ("", some "could not determine network performance for: [ 1 Gbps]") := by
  have hall : ∀ r : String, (∀ e ∈ ntwPerfMap, r ∉ e.2) → ∀ e ∈ order, r ∉ e.2 :=
    fun r h e he => h e (hperm.mem_iff.mp he)
  refine ⟨?_, ?_, ?_, ?_⟩
  · rw [MapNetworkPerf_error_iff]
    constructor
    · intro h e he
      exact h e (hperm.mem_iff.mpr he)
    · exact hall raw
  · intro h
    exact MapNetworkPerf_reject order raw (hall raw h)
  · exact MapNetworkPerf_reject order "1 gbps" (hall "1 gbps" (by decide))
  · exact MapNetworkPerf_reject order " 1 Gbps" (hall " 1 Gbps" (by decide))

/-- C2, with the table visited in reverse and the raw string "1 GBPS". -/
theorem MapNetworkPerf_unknown_witness :
    MapNetworkPerf ntwPerfMap.reverse "1 GBPS"
      = ("", some "could not determine network performance for: [1 GBPS]") :=
  (MapNetworkPerf_unknown ntwPerfMap.reverse (List.reverse_perm _) "1 GBPS").2.1 (by decide)

/-- C8: a class that `MapNetworkPerf` returns with a nil error is one of
`NTW_LOW`, `NTW_MEDIUM`, `NTW_HIGH`, `NTW_EXTRA`, and is not empty. -/
theorem MapNetworkPerf_closed (order : List (String × List String))
    (hperm : order.Perm ntwPerfMap) (raw : String)
    (hok : (MapNetworkPerf order raw).2 = none) :
    (MapNetworkPerf order raw).1 ∈ [NTW_LOW, NTW_MEDIUM, NTW_HIGH, NTW_EXTRA]
      ∧ (MapNetworkPerf order raw).1 ≠ "" := by
  have h1 : (MapNetworkPerf order raw).1 ∈ order.map Prod.fst :=
    MapNetworkPerf_class_mem order raw hok
  have h2 : (MapNetworkPerf order raw).1 ∈ ntwPerfMap.map Prod.fst :=
    (hperm.map Prod.fst).mem_iff.mp h1
  have h3 : ∀ c ∈ ntwPerfMap.map Prod.fst,
      c ∈ [NTW_LOW, NTW_MEDIUM, NTW_HIGH, NTW_EXTRA] ∧ c ≠ "" := by decide
  exact h3 _ h2

/-- C8, on the descriptor "2 Gbps" with the table visited in reverse. -/
theorem MapNetworkPerf_closed_witness :
    (MapNetworkPerf ntwPerfMap.reverse "2 Gbps").1 ∈ [NTW_LOW, NTW_MEDIUM, NTW_HIGH, NTW_EXTRA]
      ∧ (MapNetworkPerf ntwPerfMap.reverse "2 Gbps").1 ≠ "" :=
  MapNetworkPerf_closed ntwPerfMap.reverse (List.reverse_perm _) "2 Gbps" (by decide)

/-- C9: for every shape of `shapeSpecs`, `MapNetworkPerf` applied to the
`NtwPerf` descriptor of the shape returns a class of the closed set and a nil
error, in whatever order the entries of the table are visited. -/
theorem shapeSpecs_mapped (order : List (String × List String))
    (hperm : order.Perm ntwPerfMap) (shape : String) (specs : ShapeSpecs)
    (hs : (shape, specs) ∈ shapeSpecs) :
    (MapNetworkPerf order specs.NtwPerf).2 = none
      ∧ (MapNetworkPerf order specs.NtwPerf).1 ∈ [NTW_LOW, NTW_MEDIUM, NTW_HIGH, NTW_EXTRA] := by
  obtain ⟨e, he, hin⟩ := shapeSpecs_descriptors_listed (shape, specs) hs
  have hok : (MapNetworkPerf order specs.NtwPerf).2 = none := by
    by_contra hne
    exact (MapNetworkPerf_error_iff order specs.NtwPerf).mp hne e (hperm.mem_iff.mpr he) hin
  have h1 : (MapNetworkPerf order specs.NtwPerf).1 ∈ order.map Prod.fst :=
    MapNetworkPerf_class_mem order specs.NtwPerf hok
  have h2 : (MapNetworkPerf order specs.NtwPerf).1 ∈ ntwPerfMap.map Prod.fst :=
    (hperm.map Prod.fst).mem_iff.mp h1
  have h3 : ∀ c ∈ ntwPerfMap.map Prod.fst, c ∈ [NTW_LOW, NTW_MEDIUM, NTW_HIGH, NTW_EXTRA] := by
    decide
  exact ⟨hok, h3 _ h2⟩

/-- C9, on the shape "VM.DenseIO2.24" with the table visited in reverse. -/
theorem shapeSpecs_mapped_witness :
    (MapNetworkPerf ntwPerfMap.reverse "24.6 Gbps").2 = none
      ∧ (MapNetworkPerf ntwPerfMap.reverse "24.6 Gbps").1
          ∈ [NTW_LOW, NTW_MEDIUM, NTW_HIGH, NTW_EXTRA] :=
  shapeSpecs_mapped ntwPerfMap.reverse (List.reverse_perm _) "VM.DenseIO2.24"
    { PartNumber := "B88516", Cpus := 24, Mem := 320, NtwPerf := "24.6 Gbps" }
    (by simp [shapeSpecs])

end Oracle

namespace Oracle

open Cloudinfo

/-- One step of the inner loop keeps the values pairwise distinct and the keys
of `uniquemap` equal to the values collected so far. -/
theorem attrStep_inv (sprint : ℚ → String) (i : Infoer) (attrName : String)
    (st : AttrValues × List ℚ) (shape : String)
    (h : (st.1.map AttrValue.Value).Nodup ∧ ∀ v, v ∈ st.1.map AttrValue.Value ↔ v ∈ st.2) :
    ((attrStep sprint i attrName st shape).1.map AttrValue.Value).Nodup
      ∧ ∀ v, v ∈ (attrStep sprint i attrName st shape).1.map AttrValue.Value
          ↔ v ∈ (attrStep sprint i attrName st shape).2 := by
  obtain ⟨hnd, hkeys⟩ := h
  unfold attrStep
  cases hl : i.shapeSpecs.lookup shape with
  | none => exact ⟨hnd, hkeys⟩
  | some specs =>
    by_cases hin : (attrOf sprint attrName specs).Value ∈ st.2
    · simp only [hin, if_true]
      exact ⟨hnd, hkeys⟩
    · simp only [hin, if_false]
      have hnot : (attrOf sprint attrName specs).Value ∉ st.1.map AttrValue.Value :=
        fun hc => hin ((hkeys _).mp hc)
      refine ⟨?_, ?_⟩
      · rw [List.map_append, List.map_singleton]
        refine List.Nodup.append hnd (List.nodup_singleton _) ?_
        intro v hv1 hv2
        rw [List.mem_singleton] at hv2
        subst hv2
        exact hnot hv1
      · intro v
        rw [List.map_append, List.map_singleton, List.mem_append, List.mem_singleton,
          List.mem_cons, hkeys v]
        exact or_comm

/-- The inner loop over the shapes of one region keeps the invariant. -/
theorem attrStep_foldl_inv (sprint : ℚ → String) (i : Infoer) (attrName : String)
    (shapes : List String) (st : AttrValues × List ℚ)
    (h : (st.1.map AttrValue.Value).Nodup ∧ ∀ v, v ∈ st.1.map AttrValue.Value ↔ v ∈ st.2) :
    ((shapes.foldl (attrStep sprint i attrName) st).1.map AttrValue.Value).Nodup
      ∧ ∀ v, v ∈ (shapes.foldl (attrStep sprint i attrName) st).1.map AttrValue.Value
          ↔ v ∈ (shapes.foldl (attrStep sprint i attrName) st).2 := by
  induction shapes generalizing st with
  | nil => exact h
  | cons s rest ih => exact ih _ (attrStep_inv sprint i attrName st s h)

/-- The two nested loops keep the invariant. -/
theorem attrLoop_inv (sprint : ℚ → String) (i : Infoer) (attrName : String)
    (shapesInRegions : List (String × List String)) (st : AttrValues × List ℚ)
    (h : (st.1.map AttrValue.Value).Nodup ∧ ∀ v, v ∈ st.1.map AttrValue.Value ↔ v ∈ st.2) :
    ((attrLoop sprint i attrName shapesInRegions st).1.map AttrValue.Value).Nodup
      ∧ ∀ v, v ∈ (attrLoop sprint i attrName shapesInRegions st).1.map AttrValue.Value
          ↔ v ∈ (attrLoop sprint i attrName shapesInRegions st).2 := by
  unfold attrLoop
  induction shapesInRegions generalizing st with
  | nil => exact h
  | cons rs rest ih => exact ih _ (attrStep_foldl_inv sprint i attrName rs.2 st h)

/-- C7: for every attribute name and every answer of `GetSupportedShapes`
(an error included), the `AttrValues` that `GetAttributeValues` returns holds
no two entries with the same numeric `Value`. -/
theorem GetAttributeValues_nodup (sprint : ℚ → String) (i : Infoer) (attrName : String) :
    ((GetAttributeValues sprint i attrName).1.map AttrValue.Value).Nodup := by
  unfold GetAttributeValues
  cases hs : i.client.GetSupportedShapes with
  | error e => exact List.nodup_nil
  | ok shapesInRegions =>
    exact (attrLoop_inv sprint i attrName shapesInRegions ([], [])
      ⟨List.nodup_nil, fun v => by simp⟩).1

end Oracle

namespace Cloudinfo

/-- The accumulating loop adds the contributions of the zones to the start
value. -/
theorem sumSpot_eq (p : Price) (zones : List String) (acc : ℚ) :
    sumSpot p zones acc = acc + (zones.map (fun z => (p.SpotPrice.lookup z).getD 0)).sum := by
  induction zones generalizing acc with
  | nil => simp [sumSpot]
  | cons z rest ih => simp [sumSpot, ih, add_assoc]

/-- A price entry of the store is what `cachedPrice` reads. -/
theorem cachedPrice_of_get (cpi : CachingCloudInfo) (provider region instanceType : String)
    (p : Price)
    (h : cpi.vmAttrStore.Get (getPriceKey provider region instanceType)
      = some (CacheValue.price p)) :
    cachedPrice cpi provider region instanceType = some p := by
  simp [cachedPrice, h]

/-- Without an entry under the price key `cachedPrice` reads nothing. -/
theorem cachedPrice_of_miss (cpi : CachingCloudInfo) (provider region instanceType : String)
    (h : cpi.vmAttrStore.Get (getPriceKey provider region instanceType) = none) :
    cachedPrice cpi provider region instanceType = none := by
  simp [cachedPrice, h]

/-- C3: for every non-empty zones list and every cached or refreshed Price `p`
of `(region, vmType)`, `GetPrice` returns `p.OnDemandPrice` unchanged and, as
`avgSpot`, the sum over the supplied zones of the spot price of the zone (0
for a zone absent from `p.SpotPrice`) divided by `len(zones)`, which is not
zero. -/
theorem GetPrice_mean (cpi : CachingCloudInfo) (provider region instanceType : String)
    (zones : List String) (p : Price) (hz : zones ≠ [])
    (hp : cpi.vmAttrStore.Get (getPriceKey provider region instanceType)
          = some (CacheValue.price p)
        ∨ (cpi.vmAttrStore.Get (getPriceKey provider region instanceType) = none
          ∧ ∃ infoer prices, cpi.cloudInfoers.lookup provider = some infoer
              ∧ infoer.GetCurrentPrices region = Except.ok prices
              ∧ prices.lookup instanceType = some p)) :
    (GetPrice cpi provider region instanceType zones).1
        = (p.OnDemandPrice,
            (zones.map (fun z => (p.SpotPrice.lookup z).getD 0)).sum / (zones.length : ℚ),
            none)
      ∧ (zones.length : ℚ) ≠ 0 := by
  have hlen : (zones.length : ℚ) ≠ 0 := by
    have : zones.length ≠ 0 := fun h => hz (List.length_eq_zero.mp h)
    exact_mod_cast this
  refine ⟨?_, hlen⟩
  rcases hp with hhit | ⟨hmiss, infoer, prices, hl, hg, hpr⟩
  · simp [GetPrice, cachedPrice_of_get cpi provider region instanceType p hhit, sumSpot_eq]
  · simp [GetPrice, cachedPrice_of_miss cpi provider region instanceType hmiss,
      renewShortLivedInfo, hl, hg, hpr, sumSpot_eq]

/-- C3, on the three zone lists of the test: a fresh store, the test adapter,
`c3.large` with on-demand price 0.11 and spot price 0.053 in `dummyZone1`. -/
theorem GetPrice_mean_witness :
    (GetPrice { cloudInfoers := [("dummy", DummyCloudInfoer.toCloudInfoer ⟨[], [], ""⟩)],
                vmAttrStore := [] }
        "dummy" "dummyRegion" "c3.large" ["dummyZone1"]).1 = (0.11, 0.053, none)
      ∧ (GetPrice { cloudInfoers := [("dummy", DummyCloudInfoer.toCloudInfoer ⟨[], [], ""⟩)],
                    vmAttrStore := [] }
          "dummy" "dummyRegion" "c3.large"
          ["dummyZone1", "dummyZone2", "dummyZone3", "dummyZone4"]).1 = (0.11, 0.01325, none)
      ∧ (GetPrice { cloudInfoers := [("dummy", DummyCloudInfoer.toCloudInfoer ⟨[], [], ""⟩)],
                    vmAttrStore := [] }
          "dummy" "dummyRegion" "c3.large"
          ["dummyZone2", "dummyZone3", "dummyZone4"]).1 = (0.11, 0, none) := by
  have hmiss : ∀ zones : List String, zones ≠ [] →
      (GetPrice { cloudInfoers := [("dummy", DummyCloudInfoer.toCloudInfoer ⟨[], [], ""⟩)],
                  vmAttrStore := [] }
        "dummy" "dummyRegion" "c3.large" zones).1
      = ((0.11 : ℚ),
          (zones.map (fun z => (([("dummyZone1", (0.053 : ℚ))] : SpotPriceInfo).lookup z).getD 0)).sum
            / (zones.length : ℚ),
          none) := fun zones hz =>
    (GetPrice_mean
      { cloudInfoers := [("dummy", DummyCloudInfoer.toCloudInfoer ⟨[], [], ""⟩)], vmAttrStore := [] }
      "dummy" "dummyRegion" "c3.large" zones
      { OnDemandPrice := 0.11, SpotPrice := [("dummyZone1", 0.053)] } hz
      (Or.inr ⟨rfl, DummyCloudInfoer.toCloudInfoer ⟨[], [], ""⟩, dummyPrices,
        by simp [List.lookup], by simp [DummyCloudInfoer.toCloudInfoer, GetCurrentPricesError],
        by simp [dummyPrices, List.lookup]⟩)).1
  refine ⟨?_, ?_, ?_⟩
  · rw [hmiss _ (by simp)]
    simp [List.lookup]
  · rw [hmiss _ (by simp)]
    simp [List.lookup]
    norm_num
  · rw [hmiss _ (by simp)]
    simp [List.lookup]

end Cloudinfo

namespace Cloudinfo

/-- C4: whenever the store has no entry under the VMs key
"/banzaicloud.com/cloudinfo/providers/<provider>/services/<service>/regions/<region>/vms",
`GetProductDetails` returns nil details and the error "vms not yet cached for
the key: " followed by exactly that key, whatever adapters are registered:
the adapter is never queried. -/
theorem GetProductDetails_not_cached (cpi : CachingCloudInfo)
    (provider service region : String)
    (h : cpi.vmAttrStore.Get
        ("/banzaicloud.com/cloudinfo/providers/" ++ provider ++ "/services/" ++ service
          ++ "/regions/" ++ region ++ "/vms") = none) :
    ∀ infoers : List (String × CloudInfoer),
      GetProductDetails { cloudInfoers := infoers, vmAttrStore := cpi.vmAttrStore }
          provider service region
        = (none, some ("vms not yet cached for the key: "
            ++ ("/banzaicloud.com/cloudinfo/providers/" ++ provider ++ "/services/" ++ service
              ++ "/regions/" ++ region ++ "/vms"))) := by
  intro infoers
  have h2 : cpi.vmAttrStore.Get (getVmKey provider service region) = none := h
  simp only [GetProductDetails, h2]
  rfl

/-- C4, on the test case "vms not yet cached": an empty store and the test
adapter registered as "dummy". -/
theorem GetProductDetails_not_cached_witness :
    GetProductDetails
        { cloudInfoers := [("dummy", DummyCloudInfoer.toCloudInfoer ⟨[], [], ""⟩)],
          vmAttrStore := DummyCloudInfoer.store "" }
        "dummy" "dummyService" "dummyRegion"
      = (none, some ("vms not yet cached for the key: "
          ++ "/banzaicloud.com/cloudinfo/providers/dummy/services/dummyService/regions/dummyRegion/vms")) :=
  GetProductDetails_not_cached
    { cloudInfoers := [], vmAttrStore := DummyCloudInfoer.store "" }
    "dummy" "dummyService" "dummyRegion" (by simp [DummyCloudInfoer.store, ProductDetailsOK, GetProductDetail, ProductStorer.Get])
    [("dummy", DummyCloudInfoer.toCloudInfoer ⟨[], [], ""⟩)]

/-- The loop appends to `details` the joined entry of each VmInfo that has a
price entry, in order. -/
theorem joinDetails_eq (cpi : CachingCloudInfo) (provider region : String)
    (vms : List VmInfo) (details : List ProductDetails) :
    joinDetails cpi provider region vms details
      = details ++ vms.filterMap
          (fun vm => (cachedPrice cpi provider region vm.Type_).map (newProductDetails vm)) := by
  induction vms generalizing details with
  | nil => simp [joinDetails]
  | cons vm rest ih =>
    cases hp : cachedPrice cpi provider region vm.Type_ with
    | none => simp [joinDetails, hp, ih, List.filterMap_cons]
    | some pr => simp [joinDetails, hp, ih, List.filterMap_cons]

/-- The joined entries correspond one to one, in order, to the VmInfos that
have a price entry. -/
theorem joined_forall₂ (cpi : CachingCloudInfo) (provider region : String)
    (vms : List VmInfo) :
    List.Forall₂
      (fun (d : ProductDetails) (vm : VmInfo) =>
        d.Type_ = vm.Type_ ∧ d.Cpus = vm.Cpus ∧ d.Mem = vm.Mem
          ∧ ∃ pr, cachedPrice cpi provider region vm.Type_ = some pr
              ∧ d.OnDemandPrice = pr.OnDemandPrice)
      (vms.filterMap
        (fun vm => (cachedPrice cpi provider region vm.Type_).map (newProductDetails vm)))
      (vms.filter (fun vm => (cachedPrice cpi provider region vm.Type_).isSome)) := by
  induction vms with
  | nil => simp
  | cons vm rest ih =>
    cases hp : cachedPrice cpi provider region vm.Type_ with
    | none => simpa [List.filterMap_cons, List.filter_cons, hp] using ih
    | some pr =>
      simp only [List.filterMap_cons, List.filter_cons, hp, Option.map_some', Option.isSome_some,
        if_true]
      exact List.Forall₂.cons ⟨rfl, rfl, rfl, pr, hp, rfl⟩ ih

/-- C5: for every VmInfo list cached under the VMs key, `GetProductDetails`
returns, with a nil error, exactly one ProductDetails for each VmInfo whose
per-type Price entry exists in the store, in the order of the cached list;
each keeps the Type, Cpus and Mem of its VmInfo and has the OnDemandPrice of
the Price entry. -/
theorem GetProductDetails_join (cpi : CachingCloudInfo) (provider service region : String)
    (vms : List VmInfo)
    (h : cpi.vmAttrStore.Get (getVmKey provider service region) = some (CacheValue.vms vms)) :
    ∃ details, GetProductDetails cpi provider service region = (some details, none)
      ∧ List.Forall₂
          (fun (d : ProductDetails) (vm : VmInfo) =>
            d.Type_ = vm.Type_ ∧ d.Cpus = vm.Cpus ∧ d.Mem = vm.Mem
              ∧ ∃ pr, cpi.vmAttrStore.Get (getPriceKey provider region vm.Type_)
                    = some (CacheValue.price pr)
                  ∧ d.OnDemandPrice = pr.OnDemandPrice)
          details
          (vms.filter (fun vm => (cachedPrice cpi provider region vm.Type_).isSome)) := by
  refine ⟨joinDetails cpi provider region vms [], by simp only [GetProductDetails, h], ?_⟩
  rw [joinDetails_eq, List.nil_append]
  refine List.Forall₂.imp ?_ (joined_forall₂ cpi provider region vms)
  intro d vm hd
  obtain ⟨h1, h2, h3, pr, hpr, h4⟩ := hd
  refine ⟨h1, h2, h3, pr, ?_, h4⟩
  unfold cachedPrice at hpr
  split at hpr
  · rename_i p hget
    rw [hget]
    simp only [Option.some.injEq] at hpr
    rw [hpr]
  · exact absurd hpr (by simp)

end Cloudinfo

namespace Cloudinfo

/-- C5, on the test case "successfully retrieved product details": three
cached VMs with price entries for two of them yield two entries, the cached
on-demand price 0.021 of `type-1` overwritten by 0.023. -/
theorem GetProductDetails_join_witness :
    ∃ details,
      GetProductDetails
          { cloudInfoers := [("dummy", DummyCloudInfoer.toCloudInfoer ⟨[], [], ""⟩)],
            vmAttrStore := DummyCloudInfoer.store ProductDetailsOK }
          "dummy" "dummyService" "dummyRegion" = (some details, none)
        ∧ details.length = 2
        ∧ details.map (fun d => (d.Type_, d.Cpus, d.Mem, d.OnDemandPrice))
            = [("type-1", 1, 2, 0.023), ("type-2", 2, 4, 0.043)] := by
  obtain ⟨details, hres, _⟩ := GetProductDetails_join
    { cloudInfoers := [("dummy", DummyCloudInfoer.toCloudInfoer ⟨[], [], ""⟩)],
      vmAttrStore := DummyCloudInfoer.store ProductDetailsOK }
    "dummy" "dummyService" "dummyRegion"
    [ { Type_ := "type-1", OnDemandPrice := 0.021, SpotPrice := [("dummy", 0.006)],
        Cpus := 1, Mem := 2, NtwPerf := "", NtwPerfCat := "high" },
      { Type_ := "type-2", OnDemandPrice := 0, SpotPrice := [],
        Cpus := 2, Mem := 4, NtwPerf := "", NtwPerfCat := "high" },
      { Type_ := "type-3", OnDemandPrice := 0, SpotPrice := [],
        Cpus := 2, Mem := 4, NtwPerf := "", NtwPerfCat := "high" } ]
    (by simp [DummyCloudInfoer.store, ProductDetailsOK, ProductStorer.Get, getVmKey,
      List.lookup])
  refine ⟨details, hres, ?_⟩
  have heval : GetProductDetails
      { cloudInfoers := [("dummy", DummyCloudInfoer.toCloudInfoer ⟨[], [], ""⟩)],
        vmAttrStore := DummyCloudInfoer.store ProductDetailsOK }
      "dummy" "dummyService" "dummyRegion"
      = (some
          [ { Type_ := "type-1", Cpus := 1, Mem := 2, NtwPerf := "", NtwPerfCat := "high",
              OnDemandPrice := 0.023, SpotInfo := [{ Zone := "dummyZone", Price := 0.0069 }] },
            { Type_ := "type-2", Cpus := 2, Mem := 4, NtwPerf := "", NtwPerfCat := "high",
              OnDemandPrice := 0.043, SpotInfo := [{ Zone := "dummyZone", Price := 0.0087 }] } ],
          none) := by
    simp [GetProductDetails, DummyCloudInfoer.store, ProductDetailsOK, ProductStorer.Get,
      getVmKey, getPriceKey, List.lookup, joinDetails, cachedPrice, newProductDetails]
  rw [heval] at hres
  simp only [Prod.mk.injEq, Option.some.injEq, and_true] at hres
  subst hres
  simp

end Cloudinfo

namespace Cloudinfo

/-- C6 as stated fails on a warm store: with values cached under the attribute
key and an adapter whose `GetAttributeValues` fails, `GetAttrValues` returns
the cached values and a nil error, not nil values and the error of the
adapter. -/
theorem GetAttrValues_cached_counterexample :
    (DummyCloudInfoer.toCloudInfoer ⟨[], [], GetAttributeValuesError⟩).GetAttributeValues
        "dummyService" "vcpu" = Except.error GetAttributeValuesError
      ∧ (GetAttrValues
          { cloudInfoers :=
              [("dummy", DummyCloudInfoer.toCloudInfoer ⟨[], [], GetAttributeValuesError⟩)],
            vmAttrStore :=
              [(getAttrKey "dummy" "dummyService" "cpu", CacheValue.attrValues [⟨15, ""⟩])] }
          "dummy" "dummyService" "cpu").1 = (some [15], none)
      ∧ (GetAttrValues
          { cloudInfoers :=
              [("dummy", DummyCloudInfoer.toCloudInfoer ⟨[], [], GetAttributeValuesError⟩)],
            vmAttrStore :=
              [(getAttrKey "dummy" "dummyService" "cpu", CacheValue.attrValues [⟨15, ""⟩])] }
          "dummy" "dummyService" "cpu").1 ≠ (none, some GetAttributeValuesError) := by
  refine ⟨by simp [DummyCloudInfoer.toCloudInfoer], ?_, ?_⟩
  · simp [GetAttrValues, Cpu, Memory, ProductStorer.Get, List.lookup, floatValues]
  · simp [GetAttrValues, Cpu, Memory, ProductStorer.Get, List.lookup, floatValues]

/-- C6, amended: an attribute that is neither "cpu" nor "memory" is rejected
with "unsupported attribute: " and nil values; for "cpu" and "memory", when
no entry is cached under the attribute key, a succeeding adapter gives the
numeric values of its AttrValues and a failing adapter gives nil values and
that same error; when an entry is cached its numeric values are returned. -/
theorem GetAttrValues_spec (cpi : CachingCloudInfo) (provider service attr : String) :
    ((attr ≠ "cpu" ∧ attr ≠ "memory") →
        (GetAttrValues cpi provider service attr).1
          = (none, some ("unsupported attribute: " ++ attr)))
      ∧ (∀ infoer : CloudInfoer, (attr = "cpu" ∨ attr = "memory") →
          cpi.cloudInfoers.lookup provider = some infoer →
          cpi.vmAttrStore.Get (getAttrKey provider service attr) = none →
          (∀ v, infoer.GetAttributeValues service
                (if attr = "cpu" then infoer.GetCpuAttrName else infoer.GetMemoryAttrName)
              = Except.ok v →
            ∃ vals, (GetAttrValues cpi provider service attr).1 = (some vals, none)
              ∧ vals.Perm (v.map AttrValue.Value))
          ∧ (∀ e, infoer.GetAttributeValues service
                (if attr = "cpu" then infoer.GetCpuAttrName else infoer.GetMemoryAttrName)
              = Except.error e →
            (GetAttrValues cpi provider service attr).1 = (none, some e)))
      ∧ (∀ (infoer : CloudInfoer) (v : AttrValues), (attr = "cpu" ∨ attr = "memory") →
          cpi.cloudInfoers.lookup provider = some infoer →
          cpi.vmAttrStore.Get (getAttrKey provider service attr)
            = some (CacheValue.attrValues v) →
          ∃ vals, (GetAttrValues cpi provider service attr).1 = (some vals, none)
            ∧ vals.Perm (v.map AttrValue.Value)) := by
  refine ⟨?_, ?_, ?_⟩
  · intro h
    have h2 : attr ≠ Cpu ∧ attr ≠ Memory := h
    unfold GetAttrValues
    rw [if_pos h2]
  · intro infoer hattr hl hmiss
    have h2 : ¬ (attr ≠ Cpu ∧ attr ≠ Memory) := by
      intro hc
      rcases hattr with h | h
      · exact hc.1 h
      · exact hc.2 h
    refine ⟨?_, ?_⟩
    · intro v hv
      have hv2 : infoer.GetAttributeValues service
          (if attr = Cpu then infoer.GetCpuAttrName else infoer.GetMemoryAttrName)
          = Except.ok v := hv
      refine ⟨(floatValues v).insertionSort (fun a b => a ≤ b), ?_, ?_⟩
      · unfold GetAttrValues
        rw [if_neg h2]
        simp only [hl, hmiss, hv2]
      · exact List.perm_insertionSort _ _
    · intro e he
      have he2 : infoer.GetAttributeValues service
          (if attr = Cpu then infoer.GetCpuAttrName else infoer.GetMemoryAttrName)
          = Except.error e := he
      unfold GetAttrValues
      rw [if_neg h2]
      simp only [hl, hmiss, he2]
  · intro infoer v hattr hl hhit
    have h2 : ¬ (attr ≠ Cpu ∧ attr ≠ Memory) := by
      intro hc
      rcases hattr with h | h
      · exact hc.1 h
      · exact hc.2 h
    refine ⟨(floatValues v).insertionSort (fun a b => a ≤ b), ?_, ?_⟩
    · unfold GetAttrValues
      rw [if_neg h2]
      simp only [hl, hhit]
    · exact List.perm_insertionSort _ _

end Cloudinfo

namespace Cloudinfo

/-- C6 amended, on the test cases: a fresh store and the test adapter with
AttrValues `[15, 16, 17]`. -/
theorem GetAttrValues_spec_witness :
    (GetAttrValues
        { cloudInfoers :=
            [("dummy", DummyCloudInfoer.toCloudInfoer ⟨[⟨15, ""⟩, ⟨16, ""⟩, ⟨17, ""⟩], [], ""⟩)],
          vmAttrStore := [] }
        "dummy" "dummyService" "invalidAttribute").1
        = (none, some "unsupported attribute: invalidAttribute")
      ∧ (∃ vals,
          (GetAttrValues
            { cloudInfoers :=
                [("dummy", DummyCloudInfoer.toCloudInfoer ⟨[⟨15, ""⟩, ⟨16, ""⟩, ⟨17, ""⟩], [], ""⟩)],
              vmAttrStore := [] }
            "dummy" "dummyService" "cpu").1 = (some vals, none)
          ∧ vals.Perm [15, 16, 17])
      ∧ (GetAttrValues
          { cloudInfoers :=
              [("dummy", DummyCloudInfoer.toCloudInfoer ⟨[⟨15, ""⟩, ⟨16, ""⟩, ⟨17, ""⟩], [], ""⟩)],
            vmAttrStore := [] }
          "dummy" "dummyService" "cpu").1 = (some [15, 16, 17], none)
      ∧ (GetAttrValues
          { cloudInfoers :=
              [("dummy", DummyCloudInfoer.toCloudInfoer
                ⟨[⟨15, ""⟩, ⟨16, ""⟩, ⟨17, ""⟩], [], GetAttributeValuesError⟩)],
            vmAttrStore := [] }
          "dummy" "dummyService" "cpu").1 = (none, some GetAttributeValuesError) := by
  refine ⟨?_, ?_, ?_, ?_⟩
  · exact (GetAttrValues_spec
      { cloudInfoers :=
          [("dummy", DummyCloudInfoer.toCloudInfoer ⟨[⟨15, ""⟩, ⟨16, ""⟩, ⟨17, ""⟩], [], ""⟩)],
        vmAttrStore := [] }
      "dummy" "dummyService" "invalidAttribute").1 ⟨by decide, by decide⟩
  · exact ((GetAttrValues_spec
      { cloudInfoers :=
          [("dummy", DummyCloudInfoer.toCloudInfoer ⟨[⟨15, ""⟩, ⟨16, ""⟩, ⟨17, ""⟩], [], ""⟩)],
        vmAttrStore := [] }
      "dummy" "dummyService" "cpu").2.1
      (DummyCloudInfoer.toCloudInfoer ⟨[⟨15, ""⟩, ⟨16, ""⟩, ⟨17, ""⟩], [], ""⟩)
      (Or.inl rfl) (by simp [List.lookup]) rfl).1
      [⟨15, ""⟩, ⟨16, ""⟩, ⟨17, ""⟩]
      (by simp [DummyCloudInfoer.toCloudInfoer, GetAttributeValuesError])
  · simp [GetAttrValues, Cpu, Memory, ProductStorer.Get, List.lookup, floatValues,
      DummyCloudInfoer.toCloudInfoer, GetAttributeValuesError, List.insertionSort,
      List.orderedInsert]
    norm_num
  · exact ((GetAttrValues_spec
      { cloudInfoers :=
          [("dummy", DummyCloudInfoer.toCloudInfoer
            ⟨[⟨15, ""⟩, ⟨16, ""⟩, ⟨17, ""⟩], [], GetAttributeValuesError⟩)],
        vmAttrStore := [] }
      "dummy" "dummyService" "cpu").2.1
      (DummyCloudInfoer.toCloudInfoer ⟨[⟨15, ""⟩, ⟨16, ""⟩, ⟨17, ""⟩], [], GetAttributeValuesError⟩)
      (Or.inl rfl) (by simp [List.lookup]) rfl).2
      GetAttributeValuesError
      (by simp [DummyCloudInfoer.toCloudInfoer])

end Cloudinfo

namespace Oracle

open Cloudinfo

/-- An entry that a map lookup finds is an entry of the table. -/
theorem mem_of_lookup {β : Type} (l : List (String × β)) (k : String) (v : β)
    (h : l.lookup k = some v) : (k, v) ∈ l := by
  induction l with
  | nil => simp [List.lookup] at h
  | cons e rest ih =>
    obtain ⟨k1, v1⟩ := e
    by_cases hk : k = k1
    · subst hk
      simp [List.lookup] at h
      subst h
      exact List.mem_cons_self _ _
    · have hb : (k == k1) = false := by simpa using hk
      simp only [List.lookup, hb] at h
      exact List.mem_cons_of_mem _ (ih h)

/-- No shape of the catalogue has an empty network descriptor. -/
theorem shapeSpecs_descriptor_set : ∀ s ∈ shapeSpecs, s.2.NtwPerf ≠ "" := by
  decide

/-- The products of `GetProducts` never carry a network class, and carry the
descriptor of the catalogue when the shape is catalogued. -/
theorem GetProducts_catalogued (oci : OCI) (regionId : String) (products : List VmInfo)
    (h : GetProducts (NewInfoer oci) regionId = (some products, none)) :
    ∀ vm ∈ products, vm.NtwPerfCat = ""
      ∧ ∀ specs, shapeSpecs.lookup vm.Type_ = some specs →
          vm.NtwPerf = specs.NtwPerf ∧ vm.NtwPerf ≠ "" := by
  unfold GetProducts at h
  cases hc : (NewInfoer oci).client.ChangeRegion regionId with
  | some e => simp [hc] at h
  | none =>
    cases hs : (NewInfoer oci).client.GetSupportedShapesInARegion regionId with
    | error e => simp [hc, hs] at h
    | ok shapes =>
      simp only [hc, hs, Prod.mk.injEq, Option.some.injEq, and_true] at h
      subst h
      intro vm hvm
      obtain ⟨shape, _, rfl⟩ := List.mem_map.mp hvm
      refine ⟨rfl, ?_⟩
      intro specs hl
      have hl2 : shapeSpecs.lookup shape = some specs := hl
      have hne : specs.NtwPerf ≠ "" :=
        shapeSpecs_descriptor_set (shape, specs) (mem_of_lookup shapeSpecs shape specs hl2)
      have heq : (productOf (NewInfoer oci) shape).NtwPerf = specs.NtwPerf := by
        simp [productOf, NewInfoer, hl2]
      exact ⟨heq, by rw [heq]; exact hne⟩

/-- C10 at the failing input: for a region whose only reported shape is
"BM.Standard1.36", which `shapeSpecs` does not list, `GetProducts` returns a
VmInfo whose `NtwPerf` is empty (with zero Cpus and Mem). -/
theorem GetProducts_unlisted_shape :
    GetProducts
        (NewInfoer
          { GetSupportedShapes := Except.ok [("us-phoenix-1", ["BM.Standard1.36"])]
            ChangeRegion := fun _ => none
            GetSupportedShapesInARegion := fun _ => Except.ok ["BM.Standard1.36"]
            NewIdentityClient := fun _ => Except.error "no identity client" })
        "us-phoenix-1"
      = (some [ { Type_ := "BM.Standard1.36", OnDemandPrice := 0, SpotPrice := [], Cpus := 0,
                  Mem := 0, NtwPerf := "", NtwPerfCat := "" } ], none) := by
  simp [GetProducts, NewInfoer, productOf, shapeSpecs, List.lookup]

end Oracle

namespace Oracle

open Cloudinfo

/-- C12: `HasShortLivedPriceInfo` returns false, and `GetCurrentPrices` fails
for every region with a nil price map and the error "oracle prices cannot be
queried on the fly"; so spot refresh is reported as not meaningful and the
price query is unsupported, for every Infoer. -/
theorem GetCurrentPrices_unsupported (i : Infoer) (region : String) :
    HasShortLivedPriceInfo i = false
      ∧ GetCurrentPrices i region = (none, some "oracle prices cannot be queried on the fly")
      ∧ (HasShortLivedPriceInfo i = false ↔ (GetCurrentPrices i region).2 ≠ none) := by
  refine ⟨rfl, rfl, ?_⟩
  simp [HasShortLivedPriceInfo, GetCurrentPrices]

/-- C19: no raw descriptor of `ntwPerfMap` is listed under two classes, and for
every raw string any two orders in which the entries of the table are visited
yield the same (class, error) result of `MapNetworkPerf`. -/
theorem MapNetworkPerf_order_independent (order1 order2 : List (String × List String))
    (h1 : order1.Perm ntwPerfMap) (h2 : order2.Perm ntwPerfMap) (raw : String) :
    (∀ e1 ∈ ntwPerfMap, ∀ e2 ∈ ntwPerfMap, e1.1 ≠ e2.1 → ∀ d ∈ e1.2, d ∉ e2.2)
      ∧ MapNetworkPerf order1 raw = MapNetworkPerf order2 raw := by
  refine ⟨?_, ?_⟩
  · intro e1 he1 e2 he2 hne d hd1 hd2
    exact hne (ntwPerfMap_disjoint e1 he1 e2 he2 d hd1 hd2)
  · by_cases hex : ∃ e ∈ ntwPerfMap, raw ∈ e.2
    · obtain ⟨e, he, hin⟩ := hex
      have hu : ∀ (order : List (String × List String)), order.Perm ntwPerfMap →
          MapNetworkPerf order raw = (e.1, none) := by
        intro order hperm
        refine MapNetworkPerf_accept order raw e.1 ⟨e, hperm.mem_iff.mpr he, hin⟩ ?_
        intro e2 he2 hin2
        exact ntwPerfMap_disjoint e2 (hperm.mem_iff.mp he2) e he raw hin2 hin
      rw [hu order1 h1, hu order2 h2]
    · have hno : ∀ (order : List (String × List String)), order.Perm ntwPerfMap →
          ∀ e ∈ order, raw ∉ e.2 := by
        intro order hperm e he hin
        exact hex ⟨e, hperm.mem_iff.mp he, hin⟩
      rw [MapNetworkPerf_reject order1 raw (hno order1 h1),
        MapNetworkPerf_reject order2 raw (hno order2 h2)]

/-- C19, on the literal order and its reverse, for the descriptor "4.8 Gbps". -/
theorem MapNetworkPerf_order_independent_witness :
    MapNetworkPerf ntwPerfMap "4.8 Gbps" = MapNetworkPerf ntwPerfMap.reverse "4.8 Gbps" :=
  (MapNetworkPerf_order_independent ntwPerfMap ntwPerfMap.reverse (List.Perm.refl _)
    (List.reverse_perm _) "4.8 Gbps").2

end Oracle

namespace Cloudinfo

/-- C15: for a nil (empty) map of adapters `NewCachingCloudInfo` returns a nil
CachingCloudInfo and the error "could not create product infoer"; for a
non-empty map of adapters and a store it returns a CachingCloudInfo, which
holds those adapters and that store, and a nil error. -/
theorem NewCachingCloudInfo_spec (cache : ProductStorer)
    (infoers : List (String × CloudInfoer)) :
    NewCachingCloudInfo cache [] = (none, some "could not create product infoer")
      ∧ (infoers ≠ [] →
          NewCachingCloudInfo cache infoers
            = (some { cloudInfoers := infoers, vmAttrStore := cache }, none)) := by
  refine ⟨rfl, ?_⟩
  intro hne
  cases infoers with
  | nil => exact absurd rfl hne
  | cons a rest => rfl

/-- C15, on the test case "product info successfully created": the test adapter
registered as "dummy" and an empty store. -/
theorem NewCachingCloudInfo_spec_witness :
    NewCachingCloudInfo [] [("dummy", DummyCloudInfoer.toCloudInfoer ⟨[], [], ""⟩)]
      = (some { cloudInfoers := [("dummy", DummyCloudInfoer.toCloudInfoer ⟨[], [], ""⟩)],
                vmAttrStore := [] }, none) :=
  (NewCachingCloudInfo_spec [] [("dummy", DummyCloudInfoer.toCloudInfoer ⟨[], [], ""⟩)]).2
    (by simp)

end Cloudinfo

namespace Oracle

open Cloudinfo

/-- Reading a Go map after the assignment `m[k] = v`. -/
theorem mapSet_lookup {β : Type} (m : List (String × β)) (k : String) (v : β) (k2 : String) :
    (mapSet m k v).lookup k2 = if k2 = k then some v else m.lookup k2 := by
  induction m with
  | nil =>
    by_cases h : k2 = k
    · simp [mapSet, List.lookup, h]
    · have hb : (k2 == k) = false := by simpa using h
      simp [mapSet, List.lookup, h, hb]
  | cons e rest ih =>
    obtain ⟨k1, v1⟩ := e
    by_cases h1 : k1 = k
    · subst h1
      by_cases h : k2 = k1
      · simp [mapSet, List.lookup, h]
      · have hb : (k2 == k1) = false := by simpa using h
        simp [mapSet, List.lookup, h, hb]
    · by_cases h : k2 = k
      · subst h
        have hb : (k2 == k1) = false := by
          simpa using fun hc : k2 = k1 => h1 hc.symm
        simp [mapSet, h1, List.lookup, hb, ih]
      · by_cases h2 : k2 = k1
        · simp [mapSet, h1, List.lookup, h2, h]
        · have hb : (k2 == k1) = false := by simpa using h2
          simp [mapSet, h1, List.lookup, hb, ih, h]

/-- The entries of a Go map after the assignment `m[k] = v`. -/
theorem mapSet_mem {β : Type} (m : List (String × β)) (k : String) (v : β)
    (e : String × β) (h : e ∈ mapSet m k v) : e = (k, v) ∨ e ∈ m := by
  induction m with
  | nil =>
    simp only [mapSet, List.mem_singleton] at h
    exact Or.inl h
  | cons e1 rest ih =>
    obtain ⟨k1, v1⟩ := e1
    by_cases h1 : k1 = k
    · simp only [mapSet, h1, if_true, List.mem_cons] at h
      rcases h with h | h
      · exact Or.inl h
      · exact Or.inr (List.mem_cons_of_mem _ h)
    · simp only [mapSet, h1, if_false, List.mem_cons] at h
      rcases h with h | h
      · exact Or.inr (h ▸ List.mem_cons_self _ _)
      · rcases ih h with h2 | h2
        · exact Or.inl h2
        · exact Or.inr (List.mem_cons_of_mem _ h2)

/-- The keys of a Go map after the assignment `m[k] = v`. -/
theorem mapSet_keys {β : Type} (m : List (String × β)) (k : String) (v : β) (k2 : String) :
    k2 ∈ (mapSet m k v).map Prod.fst ↔ k2 = k ∨ k2 ∈ m.map Prod.fst := by
  induction m with
  | nil => simp [mapSet]
  | cons e rest ih =>
    obtain ⟨k1, v1⟩ := e
    by_cases h1 : k1 = k
    · subst h1
      simp [mapSet]
    · simp only [mapSet, h1, if_false, List.map_cons, List.mem_cons, ih]
      tauto

/-- The assignment `m[k] = v` keeps the keys of a Go map distinct. -/
theorem mapSet_nodup {β : Type} (m : List (String × β)) (k : String) (v : β)
    (h : (m.map Prod.fst).Nodup) : ((mapSet m k v).map Prod.fst).Nodup := by
  induction m with
  | nil => simp [mapSet]
  | cons e rest ih =>
    obtain ⟨k1, v1⟩ := e
    simp only [List.map_cons, List.nodup_cons] at h
    by_cases h1 : k1 = k
    · subst h1
      simp only [mapSet, if_true, List.map_cons, List.nodup_cons]
      exact h
    · simp only [mapSet, h1, if_false, List.map_cons, List.nodup_cons]
      refine ⟨?_, ih h.2⟩
      intro hc
      rcases (mapSet_keys rest k v k1).mp hc with h2 | h2
      · exact h1 h2
      · exact h.1 h2

/-- A key has a value exactly when it is a key of the map. -/
theorem lookup_isSome_iff {β : Type} (m : List (String × β)) (k : String) :
    (m.lookup k).isSome ↔ k ∈ m.map Prod.fst := by
  induction m with
  | nil => simp [List.lookup]
  | cons e rest ih =>
    obtain ⟨k1, v1⟩ := e
    by_cases h : k = k1
    · simp [List.lookup, h]
    · have hb : (k == k1) = false := by simpa using h
      simp [List.lookup, hb, ih, h]

end Oracle

namespace Oracle

open Cloudinfo

/-- The map that the loop of `GetRegions` builds: a subscribed region reads
its display name, or itself when it has none; other keys are untouched. -/
theorem regionsLoop_lookup (names : List String) (regions : List (String × String))
    (r : String) :
    (regionsLoop names regions).lookup r
      = if r ∈ names then some ((regionNames.lookup r).getD r) else regions.lookup r := by
  induction names generalizing regions with
  | nil => simp [regionsLoop]
  | cons n rest ih =>
    simp only [regionsLoop, ih, mapSet_lookup, List.mem_cons]
    by_cases h1 : r ∈ rest
    · simp [h1]
    · by_cases h2 : r = n
      · subst h2
        simp [h1]
      · simp [h1, h2]

/-- The loop of `GetRegions` keeps the keys of the map distinct. -/
theorem regionsLoop_nodup (names : List String) (regions : List (String × String))
    (h : (regions.map Prod.fst).Nodup) :
    ((regionsLoop names regions).map Prod.fst).Nodup := by
  induction names generalizing regions with
  | nil => exact h
  | cons n rest ih => exact ih _ (mapSet_nodup regions n _ h)

/-- No display name of `regionNames` is empty. -/
theorem regionNames_nonempty : ∀ e ∈ regionNames, e.2 ≠ "" := by
  decide

/-- C18: for every list of subscribed region names that the identity client
returns, the map that `GetRegions` returns has exactly those region ids as
keys, each once; it maps an id `r` to `regionNames[r]` when `r` is a known
region and to `r` itself otherwise; a key maps to the empty display name only
when the id is empty. -/
theorem GetRegions_spec (i : Infoer) (c : IdentityClient) (names : List String)
    (hc : i.client.NewIdentityClient none = Except.ok c)
    (hn : c.GetSubscribedRegionNames = Except.ok names) :
    ∃ regions, GetRegions i = (some regions, none)
      ∧ (∀ r, r ∈ regions.map Prod.fst ↔ r ∈ names)
      ∧ (regions.map Prod.fst).Nodup
      ∧ (∀ r ∈ names, ∀ d, regionNames.lookup r = some d → regions.lookup r = some d)
      ∧ (∀ r ∈ names, regionNames.lookup r = none → regions.lookup r = some r)
      ∧ (∀ r, regions.lookup r = some "" → r = "") := by
  refine ⟨regionsLoop names [], ?_, ?_, ?_, ?_, ?_, ?_⟩
  · simp only [GetRegions, hc, hn]
  · intro r
    rw [← lookup_isSome_iff, regionsLoop_lookup]
    by_cases h : r ∈ names
    · simp [h]
    · simp [h, List.lookup]
  · exact regionsLoop_nodup names [] (by simp)
  · intro r hr d hd
    rw [regionsLoop_lookup, if_pos hr, hd]
    rfl
  · intro r hr hd
    rw [regionsLoop_lookup, if_pos hr, hd]
    rfl
  · intro r hr
    rw [regionsLoop_lookup] at hr
    by_cases h : r ∈ names
    · rw [if_pos h] at hr
      cases hd : regionNames.lookup r with
      | none =>
        rw [hd] at hr
        simpa using hr
      | some d =>
        rw [hd] at hr
        have hd2 : d = "" := by simpa using hr
        exact absurd hd2 (regionNames_nonempty (r, d) (mem_of_lookup regionNames r d hd))
    · rw [if_neg h] at hr
      simp [List.lookup] at hr

/-- C18, on the subscribed regions "uk-london-1" (known) and "ap-tokyo-1"
(unknown), the first reported twice. -/
theorem GetRegions_spec_witness :
    ∃ regions,
      GetRegions
          (NewInfoer
            { GetSupportedShapes := Except.ok []
              ChangeRegion := fun _ => none
              GetSupportedShapesInARegion := fun _ => Except.ok []
              NewIdentityClient := fun _ => Except.ok
                { GetSubscribedRegionNames :=
                    Except.ok ["uk-london-1", "ap-tokyo-1", "uk-london-1"]
                  GetAvailabilityDomains := Except.ok [] } })
        = (some regions, none)
      ∧ (∀ r, r ∈ regions.map Prod.fst ↔ r ∈ ["uk-london-1", "ap-tokyo-1", "uk-london-1"])
      ∧ regions.lookup "uk-london-1" = some "EU (London)"
      ∧ regions.lookup "ap-tokyo-1" = some "ap-tokyo-1" := by
  obtain ⟨regions, hres, hkeys, _, hknown, hunknown, _⟩ := GetRegions_spec
    (NewInfoer
      { GetSupportedShapes := Except.ok []
        ChangeRegion := fun _ => none
        GetSupportedShapesInARegion := fun _ => Except.ok []
        NewIdentityClient := fun _ => Except.ok
          { GetSubscribedRegionNames := Except.ok ["uk-london-1", "ap-tokyo-1", "uk-london-1"]
            GetAvailabilityDomains := Except.ok [] } })
    { GetSubscribedRegionNames := Except.ok ["uk-london-1", "ap-tokyo-1", "uk-london-1"]
      GetAvailabilityDomains := Except.ok [] }
    ["uk-london-1", "ap-tokyo-1", "uk-london-1"] rfl rfl
  exact ⟨regions, hres, hkeys,
    hknown "uk-london-1" (by decide) "EU (London)" (by decide),
    hunknown "ap-tokyo-1" (by decide) (by decide)⟩

end Oracle

namespace Oracle

open Cloudinfo

/-- The keys of `uniquemap` after one step: the keys before, and the value of
the shape when the catalogue lists it. -/
theorem attrStep_keys (sprint : ℚ → String) (i : Infoer) (attrName : String)
    (st : AttrValues × List ℚ) (shape : String) (v : ℚ) :
    v ∈ (attrStep sprint i attrName st shape).2
      ↔ v ∈ st.2 ∨ ∃ specs, i.shapeSpecs.lookup shape = some specs
          ∧ (attrOf sprint attrName specs).Value = v := by
  unfold attrStep
  cases hl : i.shapeSpecs.lookup shape with
  | none => simp
  | some specs =>
    by_cases hin : (attrOf sprint attrName specs).Value ∈ st.2
    · simp only [hin, if_true, Option.some.injEq, exists_eq_left']
      constructor
      · exact Or.inl
      · rintro (h | h)
        · exact h
        · exact h ▸ hin
    · simp only [hin, if_false, List.mem_cons, Option.some.injEq, exists_eq_left']
      constructor
      · rintro (h | h)
        · exact Or.inr h.symm
        · exact Or.inl h
      · rintro (h | h)
        · exact Or.inr h
        · exact Or.inl h.symm

/-- The keys of `uniquemap` after the inner loop over the shapes of a region. -/
theorem attrStep_foldl_keys (sprint : ℚ → String) (i : Infoer) (attrName : String)
    (shapes : List String) (st : AttrValues × List ℚ) (v : ℚ) :
    v ∈ (shapes.foldl (attrStep sprint i attrName) st).2
      ↔ v ∈ st.2 ∨ ∃ shape ∈ shapes, ∃ specs, i.shapeSpecs.lookup shape = some specs
          ∧ (attrOf sprint attrName specs).Value = v := by
  induction shapes generalizing st with
  | nil => simp
  | cons s rest ih =>
    simp only [List.foldl_cons, ih, attrStep_keys, List.mem_cons, exists_eq_or_imp]
    exact or_assoc

/-- The keys of `uniquemap` after the two nested loops. -/
theorem attrLoop_keys (sprint : ℚ → String) (i : Infoer) (attrName : String)
    (shapesInRegions : List (String × List String)) (st : AttrValues × List ℚ) (v : ℚ) :
    v ∈ (attrLoop sprint i attrName shapesInRegions st).2
      ↔ v ∈ st.2 ∨ ∃ rs ∈ shapesInRegions, ∃ shape ∈ rs.2, ∃ specs,
          i.shapeSpecs.lookup shape = some specs
            ∧ (attrOf sprint attrName specs).Value = v := by
  unfold attrLoop
  induction shapesInRegions generalizing st with
  | nil => simp
  | cons rs rest ih =>
    simp only [List.foldl_cons, ih, attrStep_foldl_keys, List.mem_cons, exists_eq_or_imp]
    exact or_assoc

/-- The values that `GetAttributeValues` returns for a client answer: those of
the catalogued shapes among the supported ones. -/
theorem GetAttributeValues_values (sprint : ℚ → String) (i : Infoer) (attrName : String)
    (shapesInRegions : List (String × List String))
    (h : i.client.GetSupportedShapes = Except.ok shapesInRegions) (v : ℚ) :
    v ∈ (GetAttributeValues sprint i attrName).1.map AttrValue.Value
      ↔ ∃ rs ∈ shapesInRegions, ∃ shape ∈ rs.2, ∃ specs,
          i.shapeSpecs.lookup shape = some specs
            ∧ (attrOf sprint attrName specs).Value = v := by
  simp only [GetAttributeValues, h]
  rw [(attrLoop_inv sprint i attrName shapesInRegions ([], [])
    ⟨List.nodup_nil, fun v => by simp⟩).2 v, attrLoop_keys]
  simp

/-- C16: for the attribute "cpu" (resp. "memory") and every map of supported
shapes that the client returns, a number `v` is the Value of an entry of the
result of `GetAttributeValues` if and only if some supported shape of some
region is a key of `shapeSpecs` whose Cpus (resp. Mem) equals `v`; the error
is nil. -/
theorem GetAttributeValues_catalogue (sprint : ℚ → String) (oci : OCI)
    (shapesInRegions : List (String × List String))
    (h : oci.GetSupportedShapes = Except.ok shapesInRegions) (v : ℚ) :
    (v ∈ (GetAttributeValues sprint (NewInfoer oci) "cpu").1.map AttrValue.Value
        ↔ ∃ rs ∈ shapesInRegions, ∃ shape ∈ rs.2, ∃ specs,
            shapeSpecs.lookup shape = some specs ∧ specs.Cpus = v)
      ∧ (v ∈ (GetAttributeValues sprint (NewInfoer oci) "memory").1.map AttrValue.Value
        ↔ ∃ rs ∈ shapesInRegions, ∃ shape ∈ rs.2, ∃ specs,
            shapeSpecs.lookup shape = some specs ∧ specs.Mem = v)
      ∧ (GetAttributeValues sprint (NewInfoer oci) "cpu").2 = none
      ∧ (GetAttributeValues sprint (NewInfoer oci) "memory").2 = none := by
  have h2 : (NewInfoer oci).client.GetSupportedShapes = Except.ok shapesInRegions := h
  refine ⟨?_, ?_, ?_, ?_⟩
  · rw [GetAttributeValues_values sprint (NewInfoer oci) "cpu" shapesInRegions h2 v]
    simp [attrOf, cpu, NewInfoer]
  · rw [GetAttributeValues_values sprint (NewInfoer oci) "memory" shapesInRegions h2 v]
    simp [attrOf, cpu, memory, NewInfoer]
  · simp [GetAttributeValues, h2]
  · simp [GetAttributeValues, h2]

/-- C16, on a client that supports the catalogued shapes "VM.Standard1.8" and
"VM.DenseIO1.8" (both 8 CPUs) and the uncatalogued "BM.Standard1.36": 8 is a
cpu value. -/
theorem GetAttributeValues_catalogue_witness :
    (8 : ℚ) ∈ (GetAttributeValues (fun _ => "")
        (NewInfoer
          { GetSupportedShapes := Except.ok
              [("us-phoenix-1", ["VM.Standard1.8", "BM.Standard1.36", "VM.DenseIO1.8"])]
            ChangeRegion := fun _ => none
            GetSupportedShapesInARegion := fun _ => Except.ok []
            NewIdentityClient := fun _ => Except.error "no identity client" })
        "cpu").1.map AttrValue.Value :=
  (GetAttributeValues_catalogue (fun _ => "")
    { GetSupportedShapes := Except.ok
        [("us-phoenix-1", ["VM.Standard1.8", "BM.Standard1.36", "VM.DenseIO1.8"])]
      ChangeRegion := fun _ => none
      GetSupportedShapesInARegion := fun _ => Except.ok []
      NewIdentityClient := fun _ => Except.error "no identity client" }
    [("us-phoenix-1", ["VM.Standard1.8", "BM.Standard1.36", "VM.DenseIO1.8"])] rfl 8).1.mpr
    ⟨("us-phoenix-1", ["VM.Standard1.8", "BM.Standard1.36", "VM.DenseIO1.8"]),
      List.mem_singleton.mpr rfl, "VM.Standard1.8", by simp,
      { PartNumber := "B88317", Cpus := 8, Mem := 56, NtwPerf := "2.4 Gbps" },
      by simp [shapeSpecs, List.lookup], rfl⟩

end Oracle

namespace Cloudinfo

/-- An entry just written is the entry read under its key. -/
theorem get_set_same (s : ProductStorer) (k : String) (x : CacheValue) :
    (s.Set k x).Get k = some x := by
  simp [ProductStorer.Get, ProductStorer.Set, List.lookup]

/-- A write leaves the entries of the other keys as they are. -/
theorem get_set_other (s : ProductStorer) (k k2 : String) (x : CacheValue) (h : k2 ≠ k) :
    (s.Set k x).Get k2 = s.Get k2 := by
  have hb : (k2 == k) = false := by simpa using h
  simp [ProductStorer.Get, ProductStorer.Set, List.lookup, hb]

/-- A VMs key is never a zones key: the first ends in "/vms", the second in
"/zones". -/
theorem getVmKey_ne_getZonesKey (provider service region provider2 region2 : String) :
    getVmKey provider service region ≠ getZonesKey provider2 region2 := by
  intro h
  have h2 := congrArg (fun s : String => s.data.reverse) h
  simp [getVmKey, getZonesKey, String.data_append] at h2

/-- Without a zones entry under the zones key, `GetZones` refreshes through the
adapter. -/
theorem GetZones_miss (cpi : CachingCloudInfo) (provider region : String)
    (h : ∀ z, cpi.vmAttrStore.Get (getZonesKey provider region) ≠ some (CacheValue.zones z)) :
    GetZones cpi provider region
      = match cpi.cloudInfoers.lookup provider with
        | none => ((none, some ("invalid provider: " ++ provider)), cpi)
        | some infoer =>
          match infoer.GetZones region with
          | Except.error e => ((none, some e), cpi)
          | Except.ok z =>
            ((some z, none),
              { cpi with vmAttrStore :=
                  (cpi.vmAttrStore.Set (getZonesKey provider region) (CacheValue.zones z)) }) := by
  cases hget : cpi.vmAttrStore.Get (getZonesKey provider region) with
  | none => simp only [GetZones, hget]
  | some cv =>
    cases cv with
    | zones z => exact absurd hget (h z)
    | vms v => simp only [GetZones, hget]
    | price p => simp only [GetZones, hget]
    | attrValues a => simp only [GetZones, hget]
    | regions r => simp only [GetZones, hget]

/-- C13: the VMs key, the price key and the zones key are built from their
components with the org "banzaicloud.com"; a successful `renewVms` leaves its
list under the VMs key, `GetProductDetails` reads the VMs key and the price
key, and `GetZones` reads the zones key and leaves its zones under it. -/
theorem cache_keys (cpi : CachingCloudInfo) (provider service region vmType : String) :
    getVmKey provider service region
        = "/banzaicloud.com/cloudinfo/providers/" ++ provider ++ "/services/" ++ service
            ++ "/regions/" ++ region ++ "/vms"
      ∧ getPriceKey provider region vmType
        = "/banzaicloud.com/cloudinfo/providers/" ++ provider ++ "/regions/" ++ region
            ++ "/prices/" ++ vmType
      ∧ getZonesKey provider region
        = "/banzaicloud.com/cloudinfo/providers/" ++ provider ++ "/regions/" ++ region
            ++ "/zones"
      ∧ (∀ vms, (renewVms cpi provider service region).1 = (some vms, none) →
          (renewVms cpi provider service region).2.vmAttrStore.Get
              ("/banzaicloud.com/cloudinfo/providers/" ++ provider ++ "/services/" ++ service
                ++ "/regions/" ++ region ++ "/vms")
            = some (CacheValue.vms vms))
      ∧ (∀ (vm : VmInfo) (pr : Price),
          cpi.vmAttrStore.Get
              ("/banzaicloud.com/cloudinfo/providers/" ++ provider ++ "/services/" ++ service
                ++ "/regions/" ++ region ++ "/vms")
            = some (CacheValue.vms [vm]) →
          cpi.vmAttrStore.Get
              ("/banzaicloud.com/cloudinfo/providers/" ++ provider ++ "/regions/" ++ region
                ++ "/prices/" ++ vm.Type_)
            = some (CacheValue.price pr) →
          GetProductDetails cpi provider service region
            = (some [newProductDetails vm pr], none))
      ∧ (∀ z,
          cpi.vmAttrStore.Get
              ("/banzaicloud.com/cloudinfo/providers/" ++ provider ++ "/regions/" ++ region
                ++ "/zones")
            = some (CacheValue.zones z) →
          (GetZones cpi provider region).1 = (some z, none))
      ∧ (∀ z, (GetZones cpi provider region).1 = (some z, none) →
          (GetZones cpi provider region).2.vmAttrStore.Get
              ("/banzaicloud.com/cloudinfo/providers/" ++ provider ++ "/regions/" ++ region
                ++ "/zones")
            = some (CacheValue.zones z)) := by
  refine ⟨rfl, rfl, rfl, ?_, ?_, ?_, ?_⟩
  · intro vms h
    change (renewVms cpi provider service region).2.vmAttrStore.Get
      (getVmKey provider service region) = some (CacheValue.vms vms)
    unfold renewVms at h ⊢
    cases hl : cpi.cloudInfoers.lookup provider with
    | none => simp [hl] at h
    | some infoer =>
      cases hg : infoer.GetProducts service region with
      | error e => simp [hl, hg] at h
      | ok values =>
        cases hm : infoer.GetNetworkPerformanceMapper with
        | error e => simp [hl, hg, hm] at h
        | ok mapper =>
          cases hz : infoer.GetZones region with
          | error e => simp [hl, hg, hm, hz] at h
          | ok zones =>
            simp only [hl, hg, hm, hz, Prod.mk.injEq, Option.some.injEq, and_true] at h
            simp only [hl, hg, hm, hz]
            rw [get_set_other _ _ _ _ (getVmKey_ne_getZonesKey provider service region
              provider region), get_set_same, h]
  · intro vm pr hv hp
    have hv2 : cpi.vmAttrStore.Get (getVmKey provider service region)
        = some (CacheValue.vms [vm]) := hv
    have hp2 : cpi.vmAttrStore.Get (getPriceKey provider region vm.Type_)
        = some (CacheValue.price pr) := hp
    simp [GetProductDetails, hv2, joinDetails, cachedPrice, hp2]
  · intro z hz
    have hz2 : cpi.vmAttrStore.Get (getZonesKey provider region)
        = some (CacheValue.zones z) := hz
    simp [GetZones, hz2]
  · intro z h
    change (GetZones cpi provider region).2.vmAttrStore.Get (getZonesKey provider region)
      = some (CacheValue.zones z)
    by_cases hhit : ∃ z0, cpi.vmAttrStore.Get (getZonesKey provider region)
        = some (CacheValue.zones z0)
    · obtain ⟨z0, hget⟩ := hhit
      simp only [GetZones, hget, Prod.mk.injEq, Option.some.injEq, and_true] at h
      simp only [GetZones, hget, h]
    · have hmiss : ∀ z0, cpi.vmAttrStore.Get (getZonesKey provider region)
          ≠ some (CacheValue.zones z0) := fun z0 hc => hhit ⟨z0, hc⟩
      rw [GetZones_miss cpi provider region hmiss] at h ⊢
      cases hl : cpi.cloudInfoers.lookup provider with
      | none => simp [hl] at h
      | some infoer =>
        cases hg : infoer.GetZones region with
        | error e => simp [hl, hg] at h
        | ok z1 =>
          simp only [hl, hg, Prod.mk.injEq, Option.some.injEq, and_true] at h
          simp only [hl, hg, get_set_same, h]

/-- C13, on the keys of the tests: provider "dummy", service "dummyService",
region "dummyRegion", type "type-1". -/
theorem cache_keys_witness :
    getVmKey "dummy" "dummyService" "dummyRegion"
        = "/banzaicloud.com/cloudinfo/providers/dummy/services/dummyService/regions/dummyRegion/vms"
      ∧ getPriceKey "dummy" "dummyRegion" "type-1"
        = "/banzaicloud.com/cloudinfo/providers/dummy/regions/dummyRegion/prices/type-1"
      ∧ getZonesKey "dummy" "dummyRegion"
        = "/banzaicloud.com/cloudinfo/providers/dummy/regions/dummyRegion/zones" :=
  ⟨(cache_keys { cloudInfoers := [], vmAttrStore := [] }
      "dummy" "dummyService" "dummyRegion" "type-1").1,
    (cache_keys { cloudInfoers := [], vmAttrStore := [] }
      "dummy" "dummyService" "dummyRegion" "type-1").2.1,
    (cache_keys { cloudInfoers := [], vmAttrStore := [] }
      "dummy" "dummyService" "dummyRegion" "type-1").2.2.1⟩

end Cloudinfo

namespace Cloudinfo

end Cloudinfo

namespace Oracle

open Cloudinfo

/-- One step of the innermost loop of `Initialize` keeps every stored price
free of spot prices and equal, on demand, to the shape price of its type. -/
theorem productStep_inv (shapePrices : List (String × ℚ)) (m : List (String × Price))
    (product : VmInfo)
    (h : ∀ tp ∈ m, tp.2.SpotPrice = []
      ∧ tp.2.OnDemandPrice = (shapePrices.lookup tp.1).getD 0) :
    ∀ tp ∈ productStep shapePrices m product, tp.2.SpotPrice = []
      ∧ tp.2.OnDemandPrice = (shapePrices.lookup tp.1).getD 0 := by
  intro tp htp
  unfold productStep at htp
  rcases mapSet_mem m _ _ tp htp with heq | hin
  · subst heq
    refine ⟨?_, rfl⟩
    cases hl : m.lookup product.Type_ with
    | none => rfl
    | some pr => exact (h (product.Type_, pr) (mem_of_lookup m _ pr hl)).1
  · exact h tp hin

/-- The innermost loop of `Initialize` keeps the same property. -/
theorem productStep_foldl_inv (shapePrices : List (String × ℚ)) (products : List VmInfo)
    (m : List (String × Price))
    (h : ∀ tp ∈ m, tp.2.SpotPrice = []
      ∧ tp.2.OnDemandPrice = (shapePrices.lookup tp.1).getD 0) :
    ∀ tp ∈ products.foldl (productStep shapePrices) m, tp.2.SpotPrice = []
      ∧ tp.2.OnDemandPrice = (shapePrices.lookup tp.1).getD 0 := by
  induction products generalizing m with
  | nil => exact h
  | cons p rest ih => exact ih _ (productStep_inv shapePrices m p h)

/-- The innermost loop of `Initialize` never removes a type from the map. -/
theorem productStep_foldl_mono (shapePrices : List (String × ℚ)) (products : List VmInfo)
    (m : List (String × Price)) (t : String) (h : (m.lookup t).isSome) :
    ((products.foldl (productStep shapePrices) m).lookup t).isSome := by
  induction products generalizing m with
  | nil => exact h
  | cons p rest ih =>
    refine ih _ ?_
    unfold productStep
    rw [mapSet_lookup]
    by_cases ht : t = p.Type_
    · simp [ht]
    · simpa [ht] using h

/-- After the innermost loop of `Initialize` every product has an entry. -/
theorem productStep_foldl_cover (shapePrices : List (String × ℚ)) (products : List VmInfo)
    (m : List (String × Price)) (p : VmInfo) (hp : p ∈ products) :
    ((products.foldl (productStep shapePrices) m).lookup p.Type_).isSome := by
  induction products generalizing m with
  | nil => exact absurd hp (List.not_mem_nil p)
  | cons q rest ih =>
    rcases List.mem_cons.mp hp with heq | hrest
    · subst heq
      refine productStep_foldl_mono shapePrices rest _ p.Type_ ?_
      unfold productStep
      rw [mapSet_lookup]
      simp
    · exact ih _ hrest

/-- The second loop of `Initialize` keeps every stored price free of spot
prices and equal, on demand, to the shape price of its type, whether or not
it ends with an error. -/
theorem pricesLoop_inv (i : Infoer) (shapePrices : List (String × ℚ))
    (rs : List (String × String)) (prices : List (String × List (String × Price)))
    (h : ∀ e ∈ prices, ∀ tp ∈ e.2, tp.2.SpotPrice = []
      ∧ tp.2.OnDemandPrice = (shapePrices.lookup tp.1).getD 0) :
    ∀ e ∈ (pricesLoop i shapePrices rs prices).1, ∀ tp ∈ e.2, tp.2.SpotPrice = []
      ∧ tp.2.OnDemandPrice = (shapePrices.lookup tp.1).getD 0 := by
  induction rs generalizing prices with
  | nil => exact h
  | cons rd rest ih =>
    obtain ⟨region, d⟩ := rd
    unfold pricesLoop
    rcases hgp : GetProducts i region with ⟨products, err⟩
    cases err with
    | some e => exact h
    | none =>
      refine ih _ ?_
      intro e he
      rcases mapSet_mem prices _ _ e he with heq | hin
      · subst heq
        refine productStep_foldl_inv shapePrices _ _ ?_
        cases hl : prices.lookup region with
        | none => intro tp htp; exact absurd htp (List.not_mem_nil tp)
        | some m => exact h (region, m) (mem_of_lookup prices region m hl)
      · exact h e hin

/-- The second loop of `Initialize` ends without an error only when
`GetProducts` succeeds for every region it visits. -/
theorem pricesLoop_ok (i : Infoer) (shapePrices : List (String × ℚ))
    (rs : List (String × String)) (prices : List (String × List (String × Price)))
    (h : (pricesLoop i shapePrices rs prices).2 = none) :
    ∀ r ∈ rs.map Prod.fst, (GetProducts i r).2 = none := by
  induction rs generalizing prices with
  | nil => intro r hr; exact absurd hr (List.not_mem_nil r)
  | cons rd rest ih =>
    obtain ⟨region, d⟩ := rd
    unfold pricesLoop at h
    rcases hgp : GetProducts i region with ⟨products, err⟩
    rw [hgp] at h
    cases err with
    | some e => simp at h
    | none =>
      intro r hr
      simp only [List.map_cons, List.mem_cons] at hr
      rcases hr with heq | hrest
      · rw [heq, hgp]
      · exact ih _ h r hrest

/-- The keys of the price map after the second loop of `Initialize`, when
`GetProducts` succeeds for every region visited. -/
theorem pricesLoop_keys (i : Infoer) (shapePrices : List (String × ℚ))
    (rs : List (String × String)) (prices : List (String × List (String × Price)))
    (h : ∀ r ∈ rs.map Prod.fst, (GetProducts i r).2 = none) (r : String) :
    (pricesLoop i shapePrices rs prices).2 = none
      ∧ (r ∈ (pricesLoop i shapePrices rs prices).1.map Prod.fst
        ↔ r ∈ prices.map Prod.fst ∨ r ∈ rs.map Prod.fst) := by
  induction rs generalizing prices with
  | nil => simp [pricesLoop]
  | cons rd rest ih =>
    obtain ⟨region, d⟩ := rd
    unfold pricesLoop
    rcases hgp : GetProducts i region with ⟨products, err⟩
    have herr : err = none := by
      have := h region (by simp)
      rw [hgp] at this
      exact this
    subst herr
    have h2 : ∀ r ∈ rest.map Prod.fst, (GetProducts i r).2 = none :=
      fun r hr => h r (by simp only [List.map_cons, List.mem_cons]; exact Or.inr hr)
    refine ⟨(ih _ h2).1, ?_⟩
    rw [(ih _ h2).2, mapSet_keys]
    simp only [List.map_cons, List.mem_cons]
    tauto

end Oracle

namespace Oracle

open Cloudinfo

/-- Processing one region in the second loop of `Initialize` keeps the entries
that the price map already has. -/
theorem pricesStep_mono (shapePrices : List (String × ℚ)) (products : List VmInfo)
    (prices : List (String × List (String × Price))) (region r t : String)
    (h : ∃ m, prices.lookup r = some m ∧ (m.lookup t).isSome) :
    ∃ m, (mapSet prices region
        (products.foldl (productStep shapePrices) ((prices.lookup region).getD []))).lookup r
          = some m
      ∧ (m.lookup t).isSome := by
  obtain ⟨m, hm, ht⟩ := h
  rw [mapSet_lookup]
  by_cases hr : r = region
  · subst hr
    refine ⟨products.foldl (productStep shapePrices) ((prices.lookup r).getD []),
      by simp, ?_⟩
    rw [hm]
    exact productStep_foldl_mono shapePrices products m t ht
  · exact ⟨m, by simp [hr, hm], ht⟩

/-- The second loop of `Initialize` keeps the entries that the price map
already has. -/
theorem pricesLoop_mono (i : Infoer) (shapePrices : List (String × ℚ))
    (rs : List (String × String)) (prices : List (String × List (String × Price)))
    (r t : String) (h : ∃ m, prices.lookup r = some m ∧ (m.lookup t).isSome) :
    ∃ m, (pricesLoop i shapePrices rs prices).1.lookup r = some m ∧ (m.lookup t).isSome := by
  induction rs generalizing prices with
  | nil => exact h
  | cons rd rest ih =>
    obtain ⟨region, d⟩ := rd
    unfold pricesLoop
    rcases hgp : GetProducts i region with ⟨products, err⟩
    cases err with
    | some e => exact h
    | none => exact ih _ (pricesStep_mono shapePrices _ prices region r t h)

/-- After the second loop of `Initialize` every product of every region
visited has an entry, when `GetProducts` succeeds for every region visited. -/
theorem pricesLoop_cover (i : Infoer) (shapePrices : List (String × ℚ))
    (rs : List (String × String)) (prices : List (String × List (String × Price)))
    (h : ∀ r ∈ rs.map Prod.fst, (GetProducts i r).2 = none)
    (r : String) (hr : r ∈ rs.map Prod.fst) (p : VmInfo)
    (hp : p ∈ (GetProducts i r).1.getD []) :
    ∃ m, (pricesLoop i shapePrices rs prices).1.lookup r = some m
      ∧ (m.lookup p.Type_).isSome := by
  induction rs generalizing prices with
  | nil => exact absurd hr (List.not_mem_nil r)
  | cons rd rest ih =>
    obtain ⟨region, d⟩ := rd
    have h2 : ∀ r ∈ rest.map Prod.fst, (GetProducts i r).2 = none :=
      fun r hr => h r (by simp only [List.map_cons, List.mem_cons]; exact Or.inr hr)
    by_cases hrest : r ∈ rest.map Prod.fst
    · unfold pricesLoop
      rcases hgp : GetProducts i region with ⟨products, err⟩
      have herr : err = none := by
        have := h region (by simp)
        rw [hgp] at this
        exact this
      subst herr
      exact ih _ h2 hrest
    · have heq : r = region := by
        simp only [List.map_cons, List.mem_cons] at hr
        rcases hr with h3 | h3
        · exact h3
        · exact absurd h3 hrest
      subst heq
      unfold pricesLoop
      rcases hgp : GetProducts i r with ⟨products, err⟩
      have herr : err = none := by
        have := h r (by simp)
        rw [hgp] at this
        exact this
      subst herr
      rw [hgp] at hp
      refine pricesLoop_mono i shapePrices rest _ r p.Type_ ?_
      rw [mapSet_lookup]
      exact ⟨(products.getD []).foldl (productStep shapePrices) ((prices.lookup r).getD []),
        by simp, productStep_foldl_cover shapePrices _ _ p hp⟩

/-- The second loop of `Initialize`, when it ends with an error: the regions
visited split into those processed without error, the region for which
`GetProducts` fails with that error, and the rest; the prices returned are
those built from the regions processed. -/
theorem pricesLoop_error (i : Infoer) (shapePrices : List (String × ℚ))
    (rs : List (String × String)) (prices : List (String × List (String × Price)))
    (err : String) (h : (pricesLoop i shapePrices rs prices).2 = some err) :
    ∃ pre r0 post, rs = pre ++ r0 :: post
      ∧ (∀ r ∈ pre.map Prod.fst, (GetProducts i r).2 = none)
      ∧ (GetProducts i r0.1).2 = some err
      ∧ pricesLoop i shapePrices rs prices
          = ((pricesLoop i shapePrices pre prices).1, some err) := by
  induction rs generalizing prices with
  | nil => simp [pricesLoop] at h
  | cons rd rest ih =>
    obtain ⟨region, d⟩ := rd
    rcases hgp : GetProducts i region with ⟨products, e⟩
    cases e with
    | some e =>
      have h1 : pricesLoop i shapePrices ((region, d) :: rest) prices = (prices, some e) := by
        simp only [pricesLoop, hgp]
      have h2 : e = err := by
        rw [h1] at h
        simpa using h
      subst h2
      refine ⟨[], (region, d), rest, rfl, ?_, ?_, ?_⟩
      · intro r hr
        exact absurd hr (List.not_mem_nil r)
      · rw [hgp]
      · rw [h1]
        rfl
    | none =>
      have h1 : pricesLoop i shapePrices ((region, d) :: rest) prices
          = pricesLoop i shapePrices rest
              (mapSet prices region
                ((products.getD []).foldl (productStep shapePrices)
                  ((prices.lookup region).getD []))) := by
        simp only [pricesLoop, hgp]
      rw [h1] at h
      obtain ⟨pre, r0, post, hsplit, hpre, hr0, hres⟩ := ih _ h
      refine ⟨(region, d) :: pre, r0, post, by rw [hsplit]; rfl, ?_, hr0, ?_⟩
      · intro r hr
        simp only [List.map_cons, List.mem_cons] at hr
        rcases hr with heq | hr
        · rw [heq, hgp]
        · exact hpre r hr
      · rw [h1, hres]
        simp only [pricesLoop, hgp]

/-- The first loop of `Initialize` ends with an error exactly when `GetZones`
fails for a region it visits, and the error is that of such a region. -/
theorem zonesLoop_error (i : Infoer) (rs : List (String × String))
    (zonesInRegions : List (String × Option (List String))) :
    ((zonesLoop i rs zonesInRegions).2 = none
        ↔ ∀ r ∈ rs.map Prod.fst, (GetZones i r).2 = none)
      ∧ ∀ err, (zonesLoop i rs zonesInRegions).2 = some err →
          ∃ r ∈ rs.map Prod.fst, (GetZones i r).2 = some err := by
  induction rs generalizing zonesInRegions with
  | nil => simp [zonesLoop]
  | cons rd rest ih =>
    obtain ⟨region, d⟩ := rd
    rcases hgz : GetZones i region with ⟨zones, e⟩
    cases e with
    | some e =>
      have h1 : zonesLoop i ((region, d) :: rest) zonesInRegions
          = (zonesInRegions, some e) := by
        simp only [zonesLoop, hgz]
      rw [h1]
      refine ⟨?_, ?_⟩
      · constructor
        · intro hc
          simp at hc
        · intro hall
          have := hall region (by simp)
          rw [hgz] at this
          simp at this
      · intro err herr
        refine ⟨region, by simp, ?_⟩
        rw [hgz]
        exact herr
    | none =>
      have h1 : zonesLoop i ((region, d) :: rest) zonesInRegions
          = zonesLoop i rest (mapSet zonesInRegions region zones) := by
        simp only [zonesLoop, hgz]
      rw [h1]
      refine ⟨?_, ?_⟩
      · rw [(ih _).1]
        simp only [List.map_cons, List.mem_cons, forall_eq_or_imp, hgz, true_and]
      · intro err herr
        obtain ⟨r, hr, hz⟩ := (ih _).2 err herr
        exact ⟨r, by simp only [List.map_cons, List.mem_cons]; exact Or.inr hr, hz⟩

/-- The price that `GetProductPrices` holds for a shape: the unit price of the
part number times the CPUs for a catalogued shape, no entry otherwise. -/
theorem GetProductPrices_lookup (itra : String → ℚ) (i : Infoer) (shape : String) :
    (GetProductPrices itra i).1.lookup shape
      = (i.shapeSpecs.lookup shape).map (fun specs => itra specs.PartNumber * specs.Cpus) := by
  unfold GetProductPrices
  induction i.shapeSpecs with
  | nil => rfl
  | cons e rest ih =>
    obtain ⟨k, specs⟩ := e
    by_cases h : shape = k
    · simp [List.lookup, h]
    · have hb : (shape == k) = false := by simpa using h
      simpa [List.lookup, hb] using ih

end Oracle

namespace Oracle

open Cloudinfo

/-- The keys of the map that the loop of `GetRegions` builds from the empty
map are the subscribed region names. -/
theorem regionsLoop_keys (names : List String) (r : String) :
    r ∈ (regionsLoop names []).map Prod.fst ↔ r ∈ names := by
  rw [← lookup_isSome_iff, regionsLoop_lookup]
  by_cases h : r ∈ names
  · simp [h]
  · simp [h, List.lookup]

/-- An entry with a value under a type is an entry that a lookup finds. -/
theorem exists_of_isSome {β : Type} (o : Option β) (h : o.isSome) : ∃ x, o = some x := by
  cases o with
  | none => simp at h
  | some x => exact ⟨x, rfl⟩

/-- C17: when `Initialize` succeeds, the outer keys of the returned map are
exactly the subscribed regions; for every region `r` and every product `p`
that `GetProducts(r)` returns, the entry `result[r][p.Type]` has OnDemandPrice
equal to `GetProductPrices()[p.Type]` (the ITRA unit price of the part number
of the shape times its Cpus, or 0 for a shape absent from the catalogue) and
an empty SpotPrice; no entry of the map holds a spot price. -/
theorem Initialize_prices (visit1 visit2 : List (String × String) → List (String × String))
    (hv2 : ∀ l, (visit2 l).Perm l) (itra : String → ℚ) (i : Infoer)
    (prices : List (String × List (String × Price)))
    (h : Initialize visit1 visit2 itra i = (some prices, none)) :
    ∃ c names, i.client.NewIdentityClient none = Except.ok c
      ∧ c.GetSubscribedRegionNames = Except.ok names
      ∧ (∀ r, r ∈ prices.map Prod.fst ↔ r ∈ names)
      ∧ (∀ r ∈ names, ∀ products, GetProducts i r = (some products, none) →
          ∀ p ∈ products, ∃ m pr, prices.lookup r = some m ∧ m.lookup p.Type_ = some pr
            ∧ pr.OnDemandPrice = ((GetProductPrices itra i).1.lookup p.Type_).getD 0
            ∧ pr.SpotPrice = [])
      ∧ (∀ shape, ((GetProductPrices itra i).1.lookup shape).getD 0
          = match i.shapeSpecs.lookup shape with
            | some specs => itra specs.PartNumber * specs.Cpus
            | none => 0)
      ∧ (∀ e ∈ prices, ∀ tp ∈ e.2, tp.2.SpotPrice = []) := by
  cases hc : i.client.NewIdentityClient none with
  | error e => simp [Initialize, GetRegions, hc] at h
  | ok c =>
    cases hn : c.GetSubscribedRegionNames with
    | error e => simp [Initialize, GetRegions, hc, hn] at h
    | ok names =>
      have hgr : GetRegions i = (some (regionsLoop names []), none) := by
        simp only [GetRegions, hc, hn]
      rcases hz : zonesLoop i (visit1 (regionsLoop names [])) [] with ⟨z, ze⟩
      rcases hp : pricesLoop i (GetProductPrices itra i).1 (visit2 (regionsLoop names [])) []
        with ⟨ps, pe⟩
      have hgp : GetProductPrices itra i = ((GetProductPrices itra i).1, none) := rfl
      cases ze with
      | some e =>
        simp only [Initialize, hgr, Option.getD_some, hz] at h
        simp at h
      | none =>
        rw [Initialize, hgr] at h
        simp only [Option.getD_some, hz] at h
        rw [hgp] at h
        simp only [hp, Prod.mk.injEq, Option.some.injEq] at h
        obtain ⟨h1, h2⟩ := h
        subst h1
        subst h2
        have hps : ps = (pricesLoop i (GetProductPrices itra i).1
            (visit2 (regionsLoop names [])) []).1 := by rw [hp]
        have hok : ∀ r ∈ (visit2 (regionsLoop names [])).map Prod.fst,
            (GetProducts i r).2 = none :=
          pricesLoop_ok i _ _ [] (by rw [hp])
        have hmem : ∀ r, r ∈ (visit2 (regionsLoop names [])).map Prod.fst ↔ r ∈ names := by
          intro r
          rw [((hv2 (regionsLoop names [])).map Prod.fst).mem_iff, regionsLoop_keys]
        have hinv : ∀ e ∈ ps, ∀ tp ∈ e.2, tp.2.SpotPrice = []
            ∧ tp.2.OnDemandPrice = ((GetProductPrices itra i).1.lookup tp.1).getD 0 := by
          rw [hps]
          exact pricesLoop_inv i _ _ [] (fun e he => absurd he (List.not_mem_nil e))
        refine ⟨c, names, rfl, hn, ?_, ?_, ?_, ?_⟩
        · intro r
          rw [hps, (pricesLoop_keys i _ _ [] hok r).2, hmem]
          simp
        · intro r hr products hprod p hpin
          have hcov := pricesLoop_cover i (GetProductPrices itra i).1
            (visit2 (regionsLoop names [])) [] hok r ((hmem r).mpr hr) p
            (by rw [hprod]; exact hpin)
          rw [← hps] at hcov
          obtain ⟨m, hm, hsome⟩ := hcov
          obtain ⟨pr, hpr⟩ := exists_of_isSome _ hsome
          have hfacts := hinv (r, m) (mem_of_lookup ps r m hm) (p.Type_, pr)
            (mem_of_lookup m p.Type_ pr hpr)
          exact ⟨m, pr, hm, hpr, hfacts.2, hfacts.1⟩
        · intro shape
          rw [GetProductPrices_lookup]
          cases i.shapeSpecs.lookup shape with
          | none => rfl
          | some specs => rfl
        · intro e he tp htp
          exact (hinv e he tp htp).1

end Oracle

namespace Oracle

open Cloudinfo

/-- C17, on a client subscribed to "us-phoenix-1" that reports the catalogued
shape "VM.Standard1.2" (2 CPUs) and the uncatalogued "BM.Standard1.36", with
an ITRA unit price of 3 for every part number: the prices are 6 and 0, without
spot prices. -/
theorem Initialize_prices_witness :
    Initialize id List.reverse (fun _ => 3)
        (NewInfoer
          { GetSupportedShapes := Except.ok []
            ChangeRegion := fun _ => none
            GetSupportedShapesInARegion := fun _ =>
              Except.ok ["VM.Standard1.2", "BM.Standard1.36"]
            NewIdentityClient := fun _ => Except.ok
              { GetSubscribedRegionNames := Except.ok ["us-phoenix-1"]
                GetAvailabilityDomains := Except.ok ["AD-1"] } })
      = (some [("us-phoenix-1",
            [("VM.Standard1.2", { OnDemandPrice := 6, SpotPrice := [] }),
             ("BM.Standard1.36", { OnDemandPrice := 0, SpotPrice := [] })])], none)
      ∧ ∀ e ∈ [("us-phoenix-1",
            [("VM.Standard1.2", ({ OnDemandPrice := 6, SpotPrice := [] } : Price)),
             ("BM.Standard1.36", { OnDemandPrice := 0, SpotPrice := [] })])],
          ∀ tp ∈ e.2, tp.2.SpotPrice = [] := by
  have heval : Initialize id List.reverse (fun _ => 3)
      (NewInfoer
        { GetSupportedShapes := Except.ok []
          ChangeRegion := fun _ => none
          GetSupportedShapesInARegion := fun _ =>
            Except.ok ["VM.Standard1.2", "BM.Standard1.36"]
          NewIdentityClient := fun _ => Except.ok
            { GetSubscribedRegionNames := Except.ok ["us-phoenix-1"]
              GetAvailabilityDomains := Except.ok ["AD-1"] } })
      = (some [("us-phoenix-1",
          [("VM.Standard1.2", { OnDemandPrice := 6, SpotPrice := [] }),
           ("BM.Standard1.36", { OnDemandPrice := 0, SpotPrice := [] })])], none) := by
    simp [Initialize, GetRegions, regionsLoop, regionNames, mapSet, zonesLoop, GetZones,
      GetProductPrices, pricesLoop, GetProducts, productOf, productStep, NewInfoer, shapeSpecs,
      List.lookup]
    norm_num
  obtain ⟨_, _, _, _, _, _, _, hspot⟩ := Initialize_prices id List.reverse
    (fun l => List.reverse_perm l) (fun _ => 3) _ _ heval
  exact ⟨heval, hspot⟩

end Oracle

namespace Oracle

open Cloudinfo

/-- C20: if `GetRegions` fails, `Initialize` returns a nil price map and that
error; if `GetZones` fails for some region, it returns a nil price map and the
error of `GetZones` for such a region; if `GetProducts` fails for some region,
it returns the error of `GetProducts` for the first such region visited
together with a non-nil price map whose keys are the regions visited before
it, each with an entry for every product of the region. -/
theorem Initialize_errors (visit1 visit2 : List (String × String) → List (String × String))
    (hv1 : ∀ l, (visit1 l).Perm l) (hv2 : ∀ l, (visit2 l).Perm l)
    (itra : String → ℚ) (i : Infoer) :
    (∀ e, (GetRegions i).2 = some e → Initialize visit1 visit2 itra i = (none, some e))
      ∧ (∀ regions, GetRegions i = (some regions, none) →
          (∃ r ∈ regions.map Prod.fst, (GetZones i r).2 ≠ none) →
          ∃ r ∈ regions.map Prod.fst, ∃ e, (GetZones i r).2 = some e
            ∧ Initialize visit1 visit2 itra i = (none, some e))
      ∧ (∀ regions, GetRegions i = (some regions, none) →
          (∀ r ∈ regions.map Prod.fst, (GetZones i r).2 = none) →
          (∃ r ∈ regions.map Prod.fst, (GetProducts i r).2 ≠ none) →
          ∃ pre r0 post e prices, visit2 regions = pre ++ r0 :: post
            ∧ (∀ r ∈ pre.map Prod.fst, (GetProducts i r).2 = none)
            ∧ (GetProducts i r0.1).2 = some e
            ∧ Initialize visit1 visit2 itra i = (some prices, some e)
            ∧ (∀ r, r ∈ prices.map Prod.fst ↔ r ∈ pre.map Prod.fst)
            ∧ (∀ r ∈ pre.map Prod.fst, ∀ p ∈ (GetProducts i r).1.getD [],
                ∃ m pr, prices.lookup r = some m ∧ m.lookup p.Type_ = some pr
                  ∧ pr.OnDemandPrice = ((GetProductPrices itra i).1.lookup p.Type_).getD 0
                  ∧ pr.SpotPrice = [])) := by
  have hgp : GetProductPrices itra i = ((GetProductPrices itra i).1, none) := rfl
  refine ⟨?_, ?_, ?_⟩
  · intro e he
    rcases hgr : GetRegions i with ⟨regions, err⟩
    rw [hgr] at he
    simp only at he
    subst he
    simp only [Initialize, hgr]
  · intro regions hgr hex
    rcases hz : zonesLoop i (visit1 regions) [] with ⟨z, ze⟩
    have hne : ze ≠ none := by
      intro hc
      subst hc
      have hall := (zonesLoop_error i (visit1 regions) []).1.mp (by rw [hz])
      obtain ⟨r, hr, hfail⟩ := hex
      exact hfail (hall r (((hv1 regions).map Prod.fst).mem_iff.mpr hr))
    cases ze with
    | none => exact absurd rfl hne
    | some e =>
      obtain ⟨r, hr, hzr⟩ := (zonesLoop_error i (visit1 regions) []).2 e (by rw [hz])
      refine ⟨r, ((hv1 regions).map Prod.fst).mem_iff.mp hr, e, hzr, ?_⟩
      simp only [Initialize, hgr, Option.getD_some, hz]
  · intro regions hgr hzones hex
    rcases hz : zonesLoop i (visit1 regions) [] with ⟨z, ze⟩
    have hze : ze = none := by
      have := (zonesLoop_error i (visit1 regions) []).1.mpr
        (fun r hr => hzones r (((hv1 regions).map Prod.fst).mem_iff.mp hr))
      rw [hz] at this
      exact this
    subst hze
    rcases hp : pricesLoop i (GetProductPrices itra i).1 (visit2 regions) [] with ⟨ps, pe⟩
    have hpe : pe ≠ none := by
      intro hc
      subst hc
      have hall := pricesLoop_ok i (GetProductPrices itra i).1 (visit2 regions) []
        (by rw [hp])
      obtain ⟨r, hr, hfail⟩ := hex
      exact hfail (hall r (((hv2 regions).map Prod.fst).mem_iff.mpr hr))
    cases pe with
    | none => exact absurd rfl hpe
    | some e =>
      obtain ⟨pre, r0, post, hsplit, hpre, hr0, hres⟩ :=
        pricesLoop_error i (GetProductPrices itra i).1 (visit2 regions) [] e (by rw [hp])
      have hinit : Initialize visit1 visit2 itra i = (some ps, some e) := by
        rw [Initialize, hgr]
        simp only [Option.getD_some, hz]
        rw [hgp]
        simp only [hp]
      have hps : ps = (pricesLoop i (GetProductPrices itra i).1 pre []).1 := by
        rw [hp] at hres
        exact (Prod.mk.injEq _ _ _ _ ▸ hres).1
      refine ⟨pre, r0, post, e, ps, hsplit, hpre, hr0, hinit, ?_, ?_⟩
      · intro r
        rw [hps, (pricesLoop_keys i _ pre [] hpre r).2]
        simp
      · intro r hr p hpin
        have hcov := pricesLoop_cover i (GetProductPrices itra i).1 pre [] hpre r hr p hpin
        rw [← hps] at hcov
        obtain ⟨m, hm, hsome⟩ := hcov
        obtain ⟨pr, hpr⟩ := exists_of_isSome _ hsome
        have hinv := pricesLoop_inv i (GetProductPrices itra i).1 pre []
          (fun e he => absurd he (List.not_mem_nil e))
        rw [← hps] at hinv
        have hfacts := hinv (r, m) (mem_of_lookup ps r m hm) (p.Type_, pr)
          (mem_of_lookup m p.Type_ pr hpr)
        exact ⟨m, pr, hm, hpr, hfacts.2, hfacts.1⟩

end Oracle

namespace Oracle

open Cloudinfo

/-- C20, on a client subscribed to "us-phoenix-1" and "eu-frankfurt-1" whose
shapes query fails for "eu-frankfurt-1": the error is returned unchanged with
the prices of "us-phoenix-1", which is visited first. -/
theorem Initialize_errors_witness :
    (∃ pre r0 post e prices,
        [("us-phoenix-1", "US West (Phoenix)"), ("eu-frankfurt-1", "EU (Frankfurt)")]
          = pre ++ r0 :: post
        ∧ Initialize id id (fun _ => 3)
            (NewInfoer
              { GetSupportedShapes := Except.ok []
                ChangeRegion := fun _ => none
                GetSupportedShapesInARegion := fun r =>
                  if r = "eu-frankfurt-1" then Except.error "shapes unavailable"
                  else Except.ok ["VM.Standard1.1"]
                NewIdentityClient := fun _ => Except.ok
                  { GetSubscribedRegionNames := Except.ok ["us-phoenix-1", "eu-frankfurt-1"]
                    GetAvailabilityDomains := Except.ok ["AD-1"] } })
          = (some prices, some e)
        ∧ ∀ r, r ∈ prices.map Prod.fst ↔ r ∈ pre.map Prod.fst)
      ∧ Initialize id id (fun _ => 3)
          (NewInfoer
            { GetSupportedShapes := Except.ok []
              ChangeRegion := fun _ => none
              GetSupportedShapesInARegion := fun r =>
                if r = "eu-frankfurt-1" then Except.error "shapes unavailable"
                else Except.ok ["VM.Standard1.1"]
              NewIdentityClient := fun _ => Except.ok
                { GetSubscribedRegionNames := Except.ok ["us-phoenix-1", "eu-frankfurt-1"]
                  GetAvailabilityDomains := Except.ok ["AD-1"] } })
        = (some [("us-phoenix-1", [("VM.Standard1.1", { OnDemandPrice := 3, SpotPrice := [] })])],
            some "shapes unavailable") := by
  refine ⟨?_, ?_⟩
  · obtain ⟨pre, r0, post, e, prices, hsplit, _, _, hinit, hkeys, _⟩ :=
      (Initialize_errors id id (fun l => List.Perm.refl l) (fun l => List.Perm.refl l)
        (fun _ => 3)
        (NewInfoer
          { GetSupportedShapes := Except.ok []
            ChangeRegion := fun _ => none
            GetSupportedShapesInARegion := fun r =>
              if r = "eu-frankfurt-1" then Except.error "shapes unavailable"
              else Except.ok ["VM.Standard1.1"]
            NewIdentityClient := fun _ => Except.ok
              { GetSubscribedRegionNames := Except.ok ["us-phoenix-1", "eu-frankfurt-1"]
                GetAvailabilityDomains := Except.ok ["AD-1"] } })).2.2
        [("us-phoenix-1", "US West (Phoenix)"), ("eu-frankfurt-1", "EU (Frankfurt)")]
        (by decide) (by decide) (by decide)
    exact ⟨pre, r0, post, e, prices, hsplit, hinit, hkeys⟩
  · simp [Initialize, GetRegions, regionsLoop, regionNames, mapSet, zonesLoop, GetZones,
      GetProductPrices, pricesLoop, GetProducts, productOf, productStep, NewInfoer, shapeSpecs,
      List.lookup]

end Oracle

namespace Oracle

open Cloudinfo

/-- C11 as stated fails for the attribute name "gpu", which is neither "cpu"
nor "memory": with a client that reports the catalogued shape
"VM.Standard1.1", `GetAttributeValues` returns a nil error and one entry, the
zero AttrValue (Value 0, empty StrValue), not an error or an empty result. -/
theorem GetAttributeValues_unknown_counterexample :
    GetAttributeValues (fun _ => "")
        (NewInfoer
          { GetSupportedShapes := Except.ok [("us-phoenix-1", ["VM.Standard1.1"])]
            ChangeRegion := fun _ => none
            GetSupportedShapesInARegion := fun _ => Except.ok ["VM.Standard1.1"]
            NewIdentityClient := fun _ => Except.error "no identity client" })
        "gpu"
      = ([{ Value := 0, StrValue := "" }], none) := by
  simp [GetAttributeValues, NewInfoer, attrLoop, attrStep, attrOf, shapeSpecs, List.lookup,
    cpu, memory]

/-- One step of the inner loop adds at most an entry that the `switch` builds. -/
theorem attrStep_entries (sprint : ℚ → String) (i : Infoer) (attrName : String)
    (P : AttrValue → Prop) (hP : ∀ specs, P (attrOf sprint attrName specs))
    (st : AttrValues × List ℚ) (shape : String) (h : ∀ a ∈ st.1, P a) :
    ∀ a ∈ (attrStep sprint i attrName st shape).1, P a := by
  unfold attrStep
  cases hl : i.shapeSpecs.lookup shape with
  | none => exact h
  | some specs =>
    by_cases hin : (attrOf sprint attrName specs).Value ∈ st.2
    · simp only [hin, if_true]
      exact h
    · simp only [hin, if_false]
      intro a ha
      rcases List.mem_append.mp ha with h1 | h1
      · exact h a h1
      · rw [List.mem_singleton] at h1
        rw [h1]
        exact hP specs

/-- The inner loop over the shapes of a region adds only entries that the
`switch` builds. -/
theorem attrStep_foldl_entries (sprint : ℚ → String) (i : Infoer) (attrName : String)
    (P : AttrValue → Prop) (hP : ∀ specs, P (attrOf sprint attrName specs))
    (shapes : List String) (st : AttrValues × List ℚ) (h : ∀ a ∈ st.1, P a) :
    ∀ a ∈ (shapes.foldl (attrStep sprint i attrName) st).1, P a := by
  induction shapes generalizing st with
  | nil => exact h
  | cons s more ih => exact ih _ (attrStep_entries sprint i attrName P hP st s h)

/-- The two nested loops add only entries that the `switch` builds. -/
theorem attrLoop_entries (sprint : ℚ → String) (i : Infoer) (attrName : String)
    (P : AttrValue → Prop) (hP : ∀ specs, P (attrOf sprint attrName specs))
    (shapesInRegions : List (String × List String)) (st : AttrValues × List ℚ)
    (h : ∀ a ∈ st.1, P a) :
    ∀ a ∈ (attrLoop sprint i attrName shapesInRegions st).1, P a := by
  unfold attrLoop
  induction shapesInRegions generalizing st with
  | nil => exact h
  | cons rs rest ih =>
    exact ih _ (attrStep_foldl_entries sprint i attrName P hP rs.2 st h)

/-- A list of equal entries with pairwise distinct values has at most one
entry. -/
theorem length_le_one_of_const (l : AttrValues) (z : AttrValue)
    (hall : ∀ a ∈ l, a = z) (hnd : (l.map AttrValue.Value).Nodup) : l.length ≤ 1 := by
  cases l with
  | nil => simp
  | cons a rest =>
    cases rest with
    | nil => simp
    | cons b more =>
      have ha : a = z := hall a (by simp)
      have hb : b = z := hall b (by simp)
      subst ha
      subst hb
      simp at hnd

/-- C11, amended: the provider's own attribute names are "cpu" and "memory";
`GetAttributeValues` does not validate the attribute, so for every other
attribute name it returns an error only when `GetSupportedShapes` of the
client fails (with empty values), and otherwise a nil error and no value of
any shape: its result holds at most one entry, the zero AttrValue (Value 0,
empty StrValue), which is there exactly when some supported shape is a key
of the catalogue. -/
theorem GetAttributeValues_unvalidated (sprint : ℚ → String) (i : Infoer)
    (attrName : String) (hcpu : attrName ≠ "cpu") (hmem : attrName ≠ "memory") :
    GetCpuAttrName i = "cpu" ∧ GetMemoryAttrName i = "memory"
      ∧ (∀ e, i.client.GetSupportedShapes = Except.error e →
          GetAttributeValues sprint i attrName = ([], some e))
      ∧ (∀ shapesInRegions, i.client.GetSupportedShapes = Except.ok shapesInRegions →
          (GetAttributeValues sprint i attrName).2 = none
            ∧ (∀ a ∈ (GetAttributeValues sprint i attrName).1,
                a = { Value := 0, StrValue := "" })
            ∧ (GetAttributeValues sprint i attrName).1.length ≤ 1
            ∧ ((GetAttributeValues sprint i attrName).1 ≠ []
                ↔ ∃ rs ∈ shapesInRegions, ∃ shape ∈ rs.2,
                    (i.shapeSpecs.lookup shape).isSome)) := by
  have hzero : ∀ specs, attrOf sprint attrName specs = { Value := 0, StrValue := "" } := by
    intro specs
    have h1 : ¬ attrName = cpu := hcpu
    have h2 : ¬ attrName = memory := hmem
    simp only [attrOf, h1, h2, if_false]
  refine ⟨rfl, rfl, ?_, ?_⟩
  · intro e he
    simp only [GetAttributeValues, he]
  · intro shapesInRegions hs
    have hall : ∀ a ∈ (GetAttributeValues sprint i attrName).1,
        a = { Value := 0, StrValue := "" } := by
      simp only [GetAttributeValues, hs]
      exact attrLoop_entries sprint i attrName (fun a => a = { Value := 0, StrValue := "" })
        hzero shapesInRegions ([], []) (fun a ha => absurd ha (List.not_mem_nil a))
    refine ⟨by simp only [GetAttributeValues, hs], hall, ?_, ?_⟩
    · refine length_le_one_of_const _ _ hall ?_
      simp only [GetAttributeValues, hs]
      exact (attrLoop_inv sprint i attrName shapesInRegions ([], [])
        ⟨List.nodup_nil, fun v => by simp⟩).1
    · have hval := GetAttributeValues_values sprint i attrName shapesInRegions hs 0
      constructor
      · intro hne
        have h0 : (0 : ℚ) ∈ (GetAttributeValues sprint i attrName).1.map AttrValue.Value := by
          obtain ⟨a, ha⟩ := List.exists_mem_of_ne_nil _ hne
          have := hall a ha
          exact List.mem_map.mpr ⟨a, ha, by rw [this]⟩
        obtain ⟨rs, hrs, shape, hshape, specs, hl, _⟩ := hval.mp h0
        exact ⟨rs, hrs, shape, hshape, by rw [hl]; rfl⟩
      · rintro ⟨rs, hrs, shape, hshape, hsome⟩
        obtain ⟨specs, hl⟩ := exists_of_isSome _ hsome
        have h0 : (0 : ℚ) ∈ (GetAttributeValues sprint i attrName).1.map AttrValue.Value :=
          hval.mpr ⟨rs, hrs, shape, hshape, specs, hl, by rw [hzero specs]⟩
        intro hnil
        rw [hnil] at h0
        simp at h0

/-- C11 amended, for the attribute name "gpu" and a client that reports the
catalogued shape "VM.Standard1.1": the error is nil, the result has at most
one entry and is not empty. -/
theorem GetAttributeValues_unvalidated_witness :
    (GetAttributeValues (fun _ => "")
        (NewInfoer
          { GetSupportedShapes := Except.ok [("us-phoenix-1", ["VM.Standard1.1"])]
            ChangeRegion := fun _ => none
            GetSupportedShapesInARegion := fun _ => Except.ok ["VM.Standard1.1"]
            NewIdentityClient := fun _ => Except.error "no identity client" })
        "gpu").2 = none
      ∧ (GetAttributeValues (fun _ => "")
          (NewInfoer
            { GetSupportedShapes := Except.ok [("us-phoenix-1", ["VM.Standard1.1"])]
              ChangeRegion := fun _ => none
              GetSupportedShapesInARegion := fun _ => Except.ok ["VM.Standard1.1"]
              NewIdentityClient := fun _ => Except.error "no identity client" })
          "gpu").1.length ≤ 1
      ∧ (GetAttributeValues (fun _ => "")
          (NewInfoer
            { GetSupportedShapes := Except.ok [("us-phoenix-1", ["VM.Standard1.1"])]
              ChangeRegion := fun _ => none
              GetSupportedShapesInARegion := fun _ => Except.ok ["VM.Standard1.1"]
              NewIdentityClient := fun _ => Except.error "no identity client" })
          "gpu").1 ≠ [] := by
  obtain ⟨herr, _, hlen, hne⟩ := (GetAttributeValues_unvalidated (fun _ => "")
    (NewInfoer
      { GetSupportedShapes := Except.ok [("us-phoenix-1", ["VM.Standard1.1"])]
        ChangeRegion := fun _ => none
        GetSupportedShapesInARegion := fun _ => Except.ok ["VM.Standard1.1"]
        NewIdentityClient := fun _ => Except.error "no identity client" })
    "gpu" (by decide) (by decide)).2.2.2
    [("us-phoenix-1", ["VM.Standard1.1"])] rfl
  exact ⟨herr, hlen, hne.mpr ⟨("us-phoenix-1", ["VM.Standard1.1"]), by simp,
    "VM.Standard1.1", by simp, by simp [NewInfoer, shapeSpecs, List.lookup]⟩⟩

end Oracle
